import Mathlib

/-! Operation counters of `instrumented<T>`.

A shallow embedding of `src/include/instrumented.h`.

* The static array `s_counts` (`std::array<int, MaxOps>`) is a table of nine
  signed 32-bit cells; `++` on a cell adds one modulo `2^32`.
* Every member function is a state-passing function on the counter table: it
  takes the table and returns its result together with the new table.  An
  argument taken by non-const reference or by rvalue reference is returned in
  its final state as well.
* The inner type `T` is described by a record `Inner T` giving the operations
  of `T` the header calls.
* A small machine (`World`, `Call`, `step`, `run`) executes sequences of
  wrapper operations over a store of wrapper objects.
* A `std::ostream` is the text written to it so far, in the default formatting
  state; an array subscript outside the array has no result.
-/

namespace Instrumented

/-! ## Operation taxonomy -/

/-- Enumeration `instrumented_base::Operation`, without its final enumerator
`MaxOps`, which is the number of operations and never names a counter. -/
inductive Operation where
  | DefaultConstruct
  | Construct
  | CopyConstruct
  | MoveConstruct
  | CopyAssign
  | MoveAssign
  | Destruct
  | Equality
  | Comparison
  deriving DecidableEq, Repr

/-- Enumerator `MaxOps`: the size of the counter table. -/
abbrev MaxOps : Nat := 9

/-- Integer value of an enumerator (`enum Operation : int`). -/
def Operation.toNat : Operation → Nat
  | .DefaultConstruct => 0
  | .Construct => 1
  | .CopyConstruct => 2
  | .MoveConstruct => 3
  | .CopyAssign => 4
  | .MoveAssign => 5
  | .Destruct => 6
  | .Equality => 7
  | .Comparison => 8

/-- Array index named by an enumerator. -/
def Operation.idx : Operation → Fin MaxOps
  | .DefaultConstruct => ⟨0, by decide⟩
  | .Construct => ⟨1, by decide⟩
  | .CopyConstruct => ⟨2, by decide⟩
  | .MoveConstruct => ⟨3, by decide⟩
  | .CopyAssign => ⟨4, by decide⟩
  | .MoveAssign => ⟨5, by decide⟩
  | .Destruct => ⟨6, by decide⟩
  | .Equality => ⟨7, by decide⟩
  | .Comparison => ⟨8, by decide⟩

/-! ## Counter cells: C `int` -/

/-- Largest value of a 32-bit `int`. -/
def INT_MAX : Int := 2147483647

/-- Smallest value of a 32-bit `int`. -/
def INT_MIN : Int := -2147483648

/-- Reduction of an integer to the signed 32-bit range, modulo `2^32`. -/
def wrap32 (z : Int) : Int := (z + 2147483648) % 4294967296 - 2147483648

/-- One `int` cell: an integer within the signed 32-bit range. -/
structure CInt where
  val : Int
  lo : -2147483648 ≤ val
  hi : val ≤ 2147483647

/-- The `int` zero. -/
def CInt.zero : CInt := ⟨0, by decide, by decide⟩

/-- Pre-increment `++x` of an `int` cell: addition of one modulo `2^32`. -/
def CInt.preInc (c : CInt) : CInt :=
  ⟨wrap32 (c.val + 1), by unfold wrap32; omega, by unfold wrap32; omega⟩

/-! ## Counter table -/

/-- The static `std::array<int, MaxOps> s_counts` of `get_op_counts()`. -/
structure OpCounts where
  cell : Fin MaxOps → CInt

/-- Read `get_op_counts()[op]`. -/
def OpCounts.get (c : OpCounts) (op : Operation) : CInt := c.cell op.idx

/-- The statement `++get_op_counts()[op];`. -/
def OpCounts.incr (c : OpCounts) (op : Operation) : OpCounts :=
  ⟨fun i => if i = op.idx then (c.cell i).preInc else c.cell i⟩

/-- A table whose nine cells all hold the same value. -/
def OpCounts.fill (v : CInt) : OpCounts := ⟨fun _ => v⟩

/-! ## Inner type and wrapper -/

/-- Operations of the inner type `T` that the header relies on: the value of a
default-initialised `T` (for `int` an indeterminate value), the state in which
a `T` is left after it was moved from, the state in which a `T` is left by
move-assigning it to itself (`x = std::move(x)`), `operator==` and
`operator<`.  Copying a `T` yields the same value, and moving a `T` into
another object transfers its value. -/
structure Inner (T : Type) where
  dflt : T
  movedFrom : T → T
  selfMove : T → T
  eq : T → T → Bool
  lt : T → T → Bool

/-- The inner type `int`: moving an `int` leaves it as it is; `d` is the
indeterminate value of a default-initialised `int`. -/
def intInner (d : Int) : Inner Int :=
  { dflt := d, movedFrom := fun x => x, selfMove := fun x => x,
    eq := fun x y => decide (x = y), lt := fun x y => decide (x < y) }

/-- The inner type `std::string` as libstdc++ implements it: a
default-constructed string is empty, a moved-from string is empty, and a
string move-assigned to itself is left empty. -/
def stringInner : Inner String :=
  { dflt := "", movedFrom := fun _ => "", selfMove := fun _ => "",
    eq := fun x y => decide (x = y), lt := fun x y => decide (x < y) }

/-- The class `instrumented<T>`: its only data member is `T t`. -/
structure instrumented (T : Type) where
  t : T
  deriving DecidableEq, Repr

namespace instrumented

variable {T : Type}

/-- Constructor `instrumented()`: `t` is default-initialised. -/
def ctor_default (I : Inner T) (c : OpCounts) : instrumented T × OpCounts :=
  (⟨I.dflt⟩, c.incr .DefaultConstruct)

/-- Constructor `explicit instrumented(const T& a)`. -/
def ctor_value_copy (a : T) (c : OpCounts) : instrumented T × OpCounts :=
  (⟨a⟩, c.incr .Construct)

/-- Constructor `explicit instrumented(T&& a)`; returns the new wrapper, the
argument after the move, and the table. -/
def ctor_value_move (I : Inner T) (a : T) (c : OpCounts) :
    instrumented T × T × OpCounts :=
  (⟨a⟩, I.movedFrom a, c.incr .Construct)

/-- Constructor `instrumented(const instrumented& a)`. -/
def ctor_copy (a : instrumented T) (c : OpCounts) : instrumented T × OpCounts :=
  (⟨a.t⟩, c.incr .CopyConstruct)

/-- Constructor `instrumented(instrumented&& a)`; returns the new wrapper, the
source after the move, and the table. -/
def ctor_move (I : Inner T) (a : instrumented T) (c : OpCounts) :
    instrumented T × instrumented T × OpCounts :=
  (⟨a.t⟩, ⟨I.movedFrom a.t⟩, c.incr .MoveConstruct)

/-- Member `operator=(const instrumented& a)`; returns `*this` and the table. -/
def assign_copy (self a : instrumented T) (c : OpCounts) :
    instrumented T × OpCounts :=
  let c1 := c.incr .CopyAssign
  let self1 : instrumented T := { self with t := a.t }
  (self1, c1)

/-- Member `operator=(instrumented&& a)` for a source `a` that is another
object than `*this`; returns `*this`, the source after the move, and the
table. -/
def assign_move (I : Inner T) (self a : instrumented T) (c : OpCounts) :
    instrumented T × instrumented T × OpCounts :=
  let c1 := c.incr .MoveAssign
  let self1 : instrumented T := { self with t := a.t }
  (self1, ⟨I.movedFrom a.t⟩, c1)

/-- Member `operator=(instrumented&& a)` called with `a` being `*this`
(`x = std::move(x)`): the operator has no self-assignment guard, so
`t = std::move(a.t)` is the self-move-assignment of `T`.  Returns `*this` and
the table. -/
def assign_move_self (I : Inner T) (self : instrumented T) (c : OpCounts) :
    instrumented T × OpCounts :=
  let c1 := c.incr .MoveAssign
  let self1 : instrumented T := { self with t := I.selfMove self.t }
  (self1, c1)

/-- Destructor `~instrumented()`. -/
def dtor (_self : instrumented T) (c : OpCounts) : OpCounts :=
  c.incr .Destruct

/-- Member `value()` (both overloads): `return t;`. -/
def value (self : instrumented T) (c : OpCounts) : T × OpCounts :=
  (self.t, c)

/-- Static member `reset_op_counts()`: `counts.fill(0)`. -/
def reset_op_counts (_c : OpCounts) : OpCounts :=
  OpCounts.fill CInt.zero

/-- Friend `operator==`. -/
def op_eq (I : Inner T) (a b : instrumented T) (c : OpCounts) : Bool × OpCounts :=
  let c1 := c.incr .Equality
  (I.eq a.t b.t, c1)

/-- Friend `operator<`. -/
def op_lt (I : Inner T) (a b : instrumented T) (c : OpCounts) : Bool × OpCounts :=
  let c1 := c.incr .Comparison
  (I.lt a.t b.t, c1)

/-- Free `operator>`: `return b < a;`. -/
def op_gt (I : Inner T) (a b : instrumented T) (c : OpCounts) : Bool × OpCounts :=
  op_lt I b a c

/-- Free `operator<=`: `return !(b < a);`. -/
def op_le (I : Inner T) (a b : instrumented T) (c : OpCounts) : Bool × OpCounts :=
  let r := op_lt I b a c
  (!r.1, r.2)

/-- Free `operator>=`: `return !(a < b);`. -/
def op_ge (I : Inner T) (a b : instrumented T) (c : OpCounts) : Bool × OpCounts :=
  let r := op_lt I a b c
  (!r.1, r.2)

end instrumented

/-! ## Sequences of wrapper operations -/

/-- One operation of a client program.  Wrapper objects are named by the
position at which they were created. -/
inductive Call (T : Type) where
  | default_construct
  | construct_copy (x : T)
  | construct_move (x : T)
  | copy_construct (src : Nat)
  | move_construct (src : Nat)
  | copy_assign (dst src : Nat)
  | move_assign (dst src : Nat)
  | destruct (obj : Nat)
  | equal (a b : Nat)
  | less (a b : Nat)
  | greater (a b : Nat)
  | less_equal (a b : Nat)
  | greater_equal (a b : Nat)
  | value (obj : Nat)
  | reset

/-- Program state: the counter table of `instrumented<T>` and the wrapper
objects created so far (`none` once destroyed). -/
structure World (T : Type) where
  counts : OpCounts
  objs : List (Option (instrumented T))

/-- The live object named `i`, if any. -/
def World.live {T : Type} (w : World T) (i : Nat) : Option (instrumented T) :=
  (w.objs[i]?).join

/-- Execute one operation; `none` when it names an object that is not alive. -/
def step {T : Type} (I : Inner T) (w : World T) : Call T → Option (World T)
  | .default_construct =>
      let r := instrumented.ctor_default I w.counts
      some ⟨r.2, w.objs ++ [some r.1]⟩
  | .construct_copy x =>
      let r := instrumented.ctor_value_copy x w.counts
      some ⟨r.2, w.objs ++ [some r.1]⟩
  | .construct_move x =>
      let r := instrumented.ctor_value_move I x w.counts
      some ⟨r.2.2, w.objs ++ [some r.1]⟩
  | .copy_construct src =>
      (w.live src).bind fun a =>
        let r := instrumented.ctor_copy a w.counts
        some ⟨r.2, w.objs ++ [some r.1]⟩
  | .move_construct src =>
      (w.live src).bind fun a =>
        let r := instrumented.ctor_move I a w.counts
        some ⟨r.2.2, (w.objs.set src (some r.2.1)) ++ [some r.1]⟩
  | .copy_assign dst src =>
      (w.live dst).bind fun self => (w.live src).bind fun a =>
        let r := instrumented.assign_copy self a w.counts
        some ⟨r.2, w.objs.set dst (some r.1)⟩
  | .move_assign dst src =>
      (w.live dst).bind fun self => (w.live src).bind fun a =>
        if dst = src then
          let r := instrumented.assign_move_self I self w.counts
          some ⟨r.2, w.objs.set dst (some r.1)⟩
        else
          let r := instrumented.assign_move I self a w.counts
          some ⟨r.2.2, (w.objs.set src (some r.2.1)).set dst (some r.1)⟩
  | .destruct obj =>
      (w.live obj).bind fun self =>
        some ⟨instrumented.dtor self w.counts, w.objs.set obj none⟩
  | .equal a b =>
      (w.live a).bind fun x => (w.live b).bind fun y =>
        some ⟨(instrumented.op_eq I x y w.counts).2, w.objs⟩
  | .less a b =>
      (w.live a).bind fun x => (w.live b).bind fun y =>
        some ⟨(instrumented.op_lt I x y w.counts).2, w.objs⟩
  | .greater a b =>
      (w.live a).bind fun x => (w.live b).bind fun y =>
        some ⟨(instrumented.op_gt I x y w.counts).2, w.objs⟩
  | .less_equal a b =>
      (w.live a).bind fun x => (w.live b).bind fun y =>
        some ⟨(instrumented.op_le I x y w.counts).2, w.objs⟩
  | .greater_equal a b =>
      (w.live a).bind fun x => (w.live b).bind fun y =>
        some ⟨(instrumented.op_ge I x y w.counts).2, w.objs⟩
  | .value obj =>
      (w.live obj).bind fun x =>
        some ⟨(instrumented.value x w.counts).2, w.objs⟩
  | .reset => some ⟨instrumented.reset_op_counts w.counts, w.objs⟩

/-- Execute a sequence of operations from left to right. -/
def run {T : Type} (I : Inner T) : List (Call T) → World T → Option (World T)
  | [], w => some w
  | k :: ks, w => (step I w k).bind (run I ks)

/-- Whether the operation is `reset_op_counts()`. -/
def Call.isReset {T : Type} : Call T → Bool
  | .reset => true
  | _ => false

/-- The counter an operation is expected to advance: the three derived
comparisons count as `Comparison`; `value()` and a reset name no counter. -/
def Call.kind {T : Type} : Call T → Option Operation
  | .default_construct => some .DefaultConstruct
  | .construct_copy _ => some .Construct
  | .construct_move _ => some .Construct
  | .copy_construct _ => some .CopyConstruct
  | .move_construct _ => some .MoveConstruct
  | .copy_assign _ _ => some .CopyAssign
  | .move_assign _ _ => some .MoveAssign
  | .destruct _ => some .Destruct
  | .equal _ _ => some .Equality
  | .less _ _ => some .Comparison
  | .greater _ _ => some .Comparison
  | .less_equal _ _ => some .Comparison
  | .greater_equal _ _ => some .Comparison
  | .value _ => none
  | .reset => none

/-- Number of operations of kind `op` in a sequence. -/
def occurrences {T : Type} (op : Operation) (calls : List (Call T)) : Nat :=
  calls.countP fun k => decide (k.kind = some op)

/-- The scenario: default-construct a first wrapper (object 1), copy-construct
a second from it (object 2), move-assign the already existing third wrapper
(object 0) from the second, compare the first and the third with `<`, destroy
all three. -/
def scenario : List (Call Int) :=
  [.default_construct, .copy_construct 1, .move_assign 0 2, .less 1 0,
   .destruct 0, .destruct 2, .destruct 1]

/-- The scenario with the third wrapper default-constructed after the reset
(object 2): default-construct a first wrapper (object 0), copy-construct a
second from it (object 1), default-construct the third, move-assign it from
the second, compare the first and the third with `<`, destroy all three. -/
def scenarioFresh : List (Call Int) :=
  [.default_construct, .copy_construct 0, .default_construct, .move_assign 2 1,
   .less 0 2, .destruct 2, .destruct 1, .destruct 0]

/-- The same scenario with the third wrapper constructed from the value 7
after the reset. -/
def scenarioFromValue : List (Call Int) :=
  [.default_construct, .copy_construct 0, .construct_copy 7, .move_assign 2 1,
   .less 0 2, .destruct 2, .destruct 1, .destruct 0]

/-- Destroy the given objects one after the other. -/
def destroyAll {T : Type} : List (instrumented T) → OpCounts → OpCounts
  | [], c => c
  | a :: rest, c => destroyAll rest (instrumented.dtor a c)

/-- A counter table in which every cell holds `INT_MAX`. -/
def saturated : OpCounts := OpCounts.fill ⟨2147483647, by decide, by decide⟩

/-- A short client program over `int`: seven operations, two of them ordering
comparisons, with one `value()` access. -/
def demo : List (Call Int) :=
  [.default_construct, .construct_copy 7, .copy_construct 0, .less 0 1,
   .greater 0 1, .value 0, .destruct 0]

/-- A long client program over `int`: one wrapper is default-constructed and
then compared with itself `2^31` times. -/
def longLoop : List (Call Int) :=
  Call.default_construct :: List.replicate 2147483648 (Call.equal 0 0)

/-- The freshly reset counter table: all nine cells zero. -/
def zeroed : OpCounts := instrumented.reset_op_counts saturated

/-- A world over `int` with reset counters and two live wrappers, holding 3
and 8. -/
def twoObjects : World Int := ⟨zeroed, [some ⟨3⟩, some ⟨8⟩]⟩

/-! ## Names and the output stream -/

/-- The table `s_name` of `get_op_name`. -/
def s_name : List String :=
  ["default construct", "construct", "copy construct", "move construct",
   "copy assign", "move assign", "destruct", "equality", "comparison"]

/-- Function `instrumented_base::get_op_name(int op)`: `return s_name[op];`.
There is no result when `op` lies outside the array. -/
def get_op_name (op : Int) : Option String :=
  if 0 ≤ op then s_name[op.toNat]? else none

/-- A `std::ostream` in its default formatting state: the text written to it
so far. -/
structure ostream where
  text : String
  deriving DecidableEq, Repr

/-- Decimal rendering of an `int`, as the stream inserter for `int` writes
it: the digits, preceded by a minus sign when the value is negative. -/
def decimal : Int → String
  | Int.ofNat n => String.mk (Nat.toDigits 10 n)
  | Int.negSucc n => String.mk ('-' :: Nat.toDigits 10 (n + 1))

/-- Insertion `s << str` of a C string. -/
def ostream.put_cstr (s : ostream) (str : String) : ostream := ⟨s.text ++ str⟩

/-- Insertion `s << ch` of a single character. -/
def ostream.put_char (s : ostream) (ch : Char) : ostream := ⟨s.text.push ch⟩

/-- Insertion `s << n` of an `int`. -/
def ostream.put_int (s : ostream) (n : CInt) : ostream := ⟨s.text ++ decimal n.val⟩

/-- Unchecked subscript `counts[i]` with an `int` index; no result outside
the array. -/
def OpCounts.subscript (c : OpCounts) (i : Int) : Option CInt :=
  if h : 0 ≤ i ∧ i.toNat < MaxOps then some (c.cell ⟨i.toNat, h.2⟩) else none

namespace instrumented

/-- Static member `output_op_names`: the name of operation 0, then for
`i = 1, ..., MaxOps - 1` a comma and the name of operation `i`, then a
newline.  Returns the stream and the counter table. -/
def output_op_names (s : ostream) (c : OpCounts) : Option (ostream × OpCounts) :=
  (get_op_name 0).bind fun n0 =>
    ((List.range' 1 (MaxOps - 1)).foldlM
      (fun (acc : ostream) (i : Nat) =>
        (get_op_name i).map fun n => (acc.put_char ',').put_cstr n)
      (s.put_cstr n0)).bind fun s1 =>
    some (s1.put_char '\n', c)

/-- Static member `output_op_counts`: the count of operation 0, then for
`i = 1, ..., MaxOps - 1` a comma and the count of operation `i`, then a
newline.  Returns the stream and the counter table. -/
def output_op_counts (s : ostream) (c : OpCounts) : Option (ostream × OpCounts) :=
  let counts := c
  (counts.subscript 0).bind fun n0 =>
    ((List.range' 1 (MaxOps - 1)).foldlM
      (fun (acc : ostream) (i : Nat) =>
        (counts.subscript i).map fun n => (acc.put_char ',').put_int n)
      (s.put_int n0)).bind fun s1 =>
    some (s1.put_char '\n', c)

end instrumented

/-! ## Reading the two report lines -/

/-- Split a line at every occurrence of `sep`. -/
def splitFields (sep : Char) : List Char → List (List Char)
  | [] => [[]]
  | ch :: rest =>
    if ch = sep then [] :: splitFields sep rest
    else
      match splitFields sep rest with
      | [] => [[ch]]
      | f :: fs => (ch :: f) :: fs

/-- Remove one trailing newline, if there is one. -/
def stripNewline (l : List Char) : List Char :=
  if l.getLast? = some '\n' then l.dropLast else l

/-- The fields of a report line: the trailing newline is stripped and the rest
is split at commas. -/
def fields (line : String) : List String :=
  (splitFields ',' (stripNewline line.data)).map String.mk

/-- Number of wrapper objects that are alive. -/
def World.alive {T : Type} (w : World T) : Nat :=
  w.objs.countP Option.isSome

/-- The counter table at program start: static storage is zero-initialised. -/
def initialCounts : OpCounts := OpCounts.fill CInt.zero

/-- A client program over `int` that resets the counters and then runs
`longLoop`. -/
def resetThenLoop : List (Call Int) := Call.reset :: longLoop

/-- A client program over `int` that default-constructs `2^31` wrappers and
keeps them all alive. -/
def manyAlive : List (Call Int) := List.replicate 2147483648 Call.default_construct

/-- The five counters of the life cycle of a wrapper: the four kinds of
construction and destruction. -/
def lifecycleKinds : List Operation :=
  [.DefaultConstruct, .Construct, .CopyConstruct, .MoveConstruct, .Destruct]

/-! ## Basic facts about cells and tables -/

theorem wrap32_of_inRange (z : Int) (h1 : -2147483648 ≤ z) (h2 : z ≤ 2147483647) :
    wrap32 z = z := by
  unfold wrap32; omega

theorem wrap32_add_wrap32 (a b : Int) : wrap32 (wrap32 a + b) = wrap32 (a + b) := by
  unfold wrap32; omega

theorem CInt.wrap32_val (c : CInt) : wrap32 c.val = c.val :=
  wrap32_of_inRange c.val c.lo c.hi

theorem CInt.preInc_val (c : CInt) : c.preInc.val = wrap32 (c.val + 1) := rfl

theorem CInt.preInc_val_of_lt (c : CInt) (h : c.val < INT_MAX) :
    c.preInc.val = c.val + 1 := by
  have := c.lo
  unfold INT_MAX at h
  rw [CInt.preInc_val]; unfold wrap32; omega

theorem Operation.idx_val (op : Operation) : op.idx.val = op.toNat := by
  cases op <;> rfl

theorem Operation.idx_injective (a b : Operation) (h : a.idx = b.idx) : a = b := by
  cases a <;> cases b <;> first | rfl | (exact absurd h (by decide))

theorem OpCounts.get_incr_self (c : OpCounts) (op : Operation) :
    (c.incr op).get op = (c.get op).preInc := by
  simp [OpCounts.incr, OpCounts.get]

theorem OpCounts.get_incr_other (c : OpCounts) (op other : Operation)
    (h : other ≠ op) : (c.incr op).get other = c.get other := by
  have : other.idx ≠ op.idx := fun e => h (Operation.idx_injective _ _ e)
  simp [OpCounts.incr, OpCounts.get, this]

theorem OpCounts.incr_get_val (c : OpCounts) (k op : Operation) :
    ((c.incr k).get op).val = wrap32 ((c.get op).val + if k = op then 1 else 0) := by
  by_cases h : k = op
  · subst h
    simp [OpCounts.get_incr_self, CInt.preInc_val]
  · rw [OpCounts.get_incr_other _ _ _ (Ne.symm h)]
    simp [h, CInt.wrap32_val]

/-! ## Effect of one step and of a run on the counter table -/

theorem step_counts {T : Type} (I : Inner T) (w w2 : World T) (k : Call T)
    (h : step I w k = some w2) (hr : k.isReset = false) :
    w2.counts = match k.kind with
      | some op => w.counts.incr op
      | none => w.counts := by
  cases k <;> simp [step, Option.bind_eq_some, Call.isReset] at h hr
  all_goals first
    | (obtain ⟨_, _, _, _, rfl⟩ := h; rfl)
    | (obtain ⟨_, _, _, _, h2⟩ := h
       split at h2 <;> (simp only [Option.some.injEq] at h2; subst h2; rfl))

theorem step_counts_val {T : Type} (I : Inner T) (w w2 : World T) (k : Call T)
    (h : step I w k = some w2) (hr : k.isReset = false) (op : Operation) :
    (w2.counts.get op).val
      = wrap32 ((w.counts.get op).val + if k.kind = some op then 1 else 0) := by
  rw [step_counts I w w2 k h hr]
  cases hk : k.kind with
  | none => simp [CInt.wrap32_val]
  | some o => simp [OpCounts.incr_get_val]

theorem run_counts_val {T : Type} (I : Inner T) (calls : List (Call T)) :
    ∀ (w w2 : World T), run I calls w = some w2 →
      (∀ k ∈ calls, k.isReset = false) → ∀ op : Operation,
      (w2.counts.get op).val
        = wrap32 ((w.counts.get op).val + (occurrences op calls : Nat)) := by
  induction calls with
  | nil =>
    intro w w2 h _ op
    simp only [run, Option.some.injEq] at h
    subst h
    simp [occurrences, CInt.wrap32_val]
  | cons k ks ih =>
    intro w w2 h hnr op
    simp only [run, Option.bind_eq_some] at h
    obtain ⟨w1, h1, h2⟩ := h
    have hk := step_counts_val I w w1 k h1 (hnr k (List.mem_cons_self k ks)) op
    have hrest := ih w1 w2 h2 (fun j hj => hnr j (List.mem_cons_of_mem k hj)) op
    rw [hrest, hk, wrap32_add_wrap32]
    congr 1
    by_cases hkk : k.kind = some op
    · simp [occurrences, List.countP_cons, hkk]; ring
    · simp [occurrences, List.countP_cons, hkk]

theorem run_cons_default {T : Type} (I : Inner T) (ks : List (Call T)) (w : World T) :
    run I (Call.default_construct :: ks) w
      = run I ks ⟨w.counts.incr Operation.DefaultConstruct,
          w.objs ++ [some ⟨I.dflt⟩]⟩ := rfl

theorem occurrences_replicate_equal {T : Type} (n a b : Nat) :
    occurrences Operation.Equality (List.replicate n (Call.equal a b : Call T)) = n := by
  induction n with
  | zero => rfl
  | succ m ih =>
    have hk : (Call.equal a b : Call T).kind = some Operation.Equality := rfl
    simp only [occurrences] at ih
    simp [occurrences, List.replicate_succ, List.countP_cons, hk, ih]

theorem run_replicate_equal {T : Type} (I : Inner T) (n : Nat) :
    ∀ (w : World T) (x : instrumented T), w.live 0 = some x →
      ∃ w2, run I (List.replicate n (Call.equal 0 0)) w = some w2 := by
  induction n with
  | zero => intro w _ _; exact ⟨w, rfl⟩
  | succ m ih =>
    intro w x hx
    have hs : step I w (Call.equal 0 0)
        = some ⟨(instrumented.op_eq I x x w.counts).2, w.objs⟩ := by
      simp [step, hx]
    obtain ⟨w2, h2⟩ := ih ⟨(instrumented.op_eq I x x w.counts).2, w.objs⟩ x hx
    exact ⟨w2, by simp only [List.replicate_succ, run, hs, Option.some_bind, h2]⟩

/-! ## Facts about the object store -/

theorem World.live_lt {T : Type} (w : World T) (i : Nat) (a : instrumented T)
    (h : w.live i = some a) : i < w.objs.length ∧ w.objs[i]? = some (some a) := by
  unfold World.live at h
  cases hi : w.objs[i]? with
  | none => simp [hi] at h
  | some o =>
    have hlt : i < w.objs.length := by
      by_contra hge
      rw [List.getElem?_eq_none (Nat.le_of_not_lt hge)] at hi
      cases hi
    rw [hi] at h
    cases o with
    | none => simp at h
    | some b =>
      have hb : b = a := by simpa using h
      exact ⟨hlt, by rw [hb]⟩

theorem World.live_append {T : Type} (w : World T) (c2 : OpCounts)
    (x : Option (instrumented T)) (i : Nat) (a : instrumented T)
    (h : w.live i = some a) :
    World.live ⟨c2, w.objs ++ [x]⟩ i = some a := by
  obtain ⟨hlt, hi⟩ := World.live_lt w i a h
  simp [World.live, List.getElem?_append_left hlt, hi]

theorem World.live_new {T : Type} (c : OpCounts) (objs : List (Option (instrumented T)))
    (a : instrumented T) : World.live ⟨c, objs ++ [some a]⟩ objs.length = some a := by
  simp [World.live]

theorem World.live_set_self {T : Type} (c : OpCounts)
    (objs : List (Option (instrumented T))) (i : Nat) (a : instrumented T)
    (h : i < objs.length) : World.live ⟨c, objs.set i (some a)⟩ i = some a := by
  simp [World.live, List.getElem?_set_self, h]

theorem World.live_set_other {T : Type} (w : World T) (c2 : OpCounts)
    (x : Option (instrumented T)) (i j : Nat) (h : i ≠ j) :
    World.live ⟨c2, w.objs.set i x⟩ j = w.live j := by
  simp [World.live, List.getElem?_set_ne h]

theorem destroyAll_val {T : Type} (objs : List (instrumented T)) :
    ∀ c : OpCounts, ((destroyAll objs c).get Operation.Destruct).val
      = wrap32 ((c.get Operation.Destruct).val + (objs.length : Nat)) := by
  induction objs with
  | nil => intro c; simp [destroyAll, CInt.wrap32_val]
  | cons a rest ih =>
    intro c
    simp only [destroyAll, ih, instrumented.dtor, OpCounts.get_incr_self,
      CInt.preInc_val, wrap32_add_wrap32, List.length_cons]
    congr 1
    push_cast
    ring

theorem destroyAll_other {T : Type} (objs : List (instrumented T)) :
    ∀ (c : OpCounts) (op : Operation), op ≠ Operation.Destruct →
      (destroyAll objs c).get op = c.get op := by
  induction objs with
  | nil => intro c op _; rfl
  | cons a rest ih =>
    intro c op hop
    simp only [destroyAll, instrumented.dtor]
    rw [ih _ op hop, OpCounts.get_incr_other _ _ _ hop]

/-! ## Counting contract over sequences of operations -/

/-- C1, as amended: after `reset_op_counts()`, for every sequence of wrapper
operations without a further reset that executes to the end, every counter
whose kind occurs at most `INT_MAX` times in the sequence holds exactly the
number of operations of that kind (`>`, `<=`, `>=` counting as Comparison,
`value()` as nothing). -/
theorem counts_after_reset {T : Type} (I : Inner T) (calls : List (Call T))
    (w0 w : World T) (hnr : ∀ k ∈ calls, k.isReset = false)
    (hrun : run I calls ⟨instrumented.reset_op_counts w0.counts, w0.objs⟩ = some w)
    (op : Operation) (hb : (occurrences op calls : Int) ≤ INT_MAX) :
    (w.counts.get op).val = (occurrences op calls : Nat) := by
  have h := run_counts_val I calls _ w hrun hnr op
  have h0 : ((instrumented.reset_op_counts w0.counts).get op).val = 0 := rfl
  rw [h, h0]
  unfold INT_MAX at hb
  unfold wrap32
  omega

/-- Witness of C1 on the program `demo`: the run succeeds and the Comparison
counter ends at 2. -/
theorem counts_after_reset_witness :
    ∃ w, run (intInner 0) demo ⟨instrumented.reset_op_counts saturated, []⟩ = some w ∧
      (w.counts.get Operation.Comparison).val = 2 :=
  ⟨_, rfl, counts_after_reset (intInner 0) demo ⟨saturated, []⟩ _ (by decide) rfl
    Operation.Comparison (by decide)⟩

/-- Counterexample to C1 as stated: after a reset, the program `longLoop`
performs `2^31` equality comparisons and runs to the end, yet the Equality
counter then holds `-2^31`. -/
theorem count_overflow :
    ∃ w, run (intInner 0) longLoop ⟨instrumented.reset_op_counts saturated, []⟩ = some w ∧
      occurrences Operation.Equality longLoop = 2147483648 ∧
      (w.counts.get Operation.Equality).val = -2147483648 := by
  have hocc : occurrences Operation.Equality longLoop = 2147483648 := by
    have h := occurrences_replicate_equal (T := Int) 2147483648 0 0
    have hk : (Call.default_construct : Call Int).kind ≠ some Operation.Equality := by
      decide
    unfold longLoop
    unfold occurrences at h ⊢
    rw [List.countP_cons_of_neg _ _ (by simpa using hk)]
    exact h
  have hnr : ∀ k ∈ longLoop, k.isReset = false := by
    intro k hk
    unfold longLoop at hk
    rcases List.mem_cons.mp hk with h | h
    · subst h; rfl
    · rw [List.eq_of_mem_replicate h]; rfl
  obtain ⟨w, hw⟩ := run_replicate_equal (intInner 0) 2147483648
    ⟨(instrumented.reset_op_counts saturated).incr Operation.DefaultConstruct,
      [] ++ [some (instrumented.mk (intInner 0).dflt)]⟩ (instrumented.mk 0) (by simp [World.live, intInner])
  have hrun : run (intInner 0) longLoop
      ⟨instrumented.reset_op_counts saturated, []⟩ = some w := by
    unfold longLoop
    rw [run_cons_default]
    exact hw
  refine ⟨w, hrun, hocc, ?_⟩
  have h := run_counts_val (intInner 0) longLoop _ w hrun hnr Operation.Equality
  have h0 : ((instrumented.reset_op_counts saturated).get Operation.Equality).val = 0 :=
    rfl
  rw [h, h0, hocc]
  unfold wrap32
  omega

/-! ## The end-to-end scenario -/

/-- C2, as amended: from reset counters and with the third wrapper already
alive (constructed before the reset), whatever values the wrappers hold, the
scenario (default-construct, copy-construct, move-assign, one `<`, three
destructions) runs to the end and leaves the table DefaultConstruct=1,
Construct=0, CopyConstruct=1, MoveConstruct=0, CopyAssign=0, MoveAssign=1,
Destruct=3, Equality=0, Comparison=1, with no wrapper left alive. -/
theorem scenario_counts (d v : Int) (c0 : OpCounts) :
    ∃ w, run (intInner d) scenario ⟨instrumented.reset_op_counts c0, [some ⟨v⟩]⟩ = some w ∧
      (w.counts.get Operation.DefaultConstruct).val = 1 ∧
      (w.counts.get Operation.Construct).val = 0 ∧
      (w.counts.get Operation.CopyConstruct).val = 1 ∧
      (w.counts.get Operation.MoveConstruct).val = 0 ∧
      (w.counts.get Operation.CopyAssign).val = 0 ∧
      (w.counts.get Operation.MoveAssign).val = 1 ∧
      (w.counts.get Operation.Destruct).val = 3 ∧
      (w.counts.get Operation.Equality).val = 0 ∧
      (w.counts.get Operation.Comparison).val = 1 ∧
      w.objs = [none, none, none] :=
  ⟨_, rfl, rfl, rfl, rfl, rfl, rfl, rfl, rfl, rfl, rfl, rfl⟩

/-- Counterexample to C2 as stated: from reset counters and no wrapper alive,
the scenario cannot move-assign a third wrapper that was never constructed;
with the third wrapper default-constructed after the reset the table ends at
DefaultConstruct=2, Construct=0, CopyConstruct=1, MoveConstruct=0,
CopyAssign=0, MoveAssign=1, Destruct=3, Equality=0, Comparison=1, and with the
third wrapper constructed from a value it ends with Construct=1; neither is
the table of the claim. -/
theorem scenario_needs_third :
    run (intInner 0) scenario ⟨zeroed, []⟩ = none ∧
    (∃ w, run (intInner 0) scenarioFresh ⟨zeroed, []⟩ = some w ∧
      (w.counts.get Operation.DefaultConstruct).val = 2 ∧
      (w.counts.get Operation.Construct).val = 0 ∧
      (w.counts.get Operation.CopyConstruct).val = 1 ∧
      (w.counts.get Operation.MoveConstruct).val = 0 ∧
      (w.counts.get Operation.CopyAssign).val = 0 ∧
      (w.counts.get Operation.MoveAssign).val = 1 ∧
      (w.counts.get Operation.Destruct).val = 3 ∧
      (w.counts.get Operation.Equality).val = 0 ∧
      (w.counts.get Operation.Comparison).val = 1 ∧
      (w.counts.get Operation.DefaultConstruct).val ≠ 1 ∧
      w.objs = [none, none, none]) ∧
    (∃ w, run (intInner 0) scenarioFromValue ⟨zeroed, []⟩ = some w ∧
      (w.counts.get Operation.DefaultConstruct).val = 1 ∧
      (w.counts.get Operation.Construct).val = 1 ∧
      (w.counts.get Operation.Destruct).val = 3 ∧
      (w.counts.get Operation.Construct).val ≠ 0 ∧
      w.objs = [none, none, none]) :=
  ⟨rfl, ⟨_, rfl, rfl, rfl, rfl, rfl, rfl, rfl, rfl, rfl, rfl, by decide, rfl⟩,
    ⟨_, rfl, rfl, rfl, rfl, by decide, rfl⟩⟩

/-! ## Construction from a value -/

/-- C3, as amended: for every value `x` and every counter table whose Construct
counter is below `INT_MAX`, constructing a wrapper from `x` (by either
overload) yields a wrapper whose `value()` is `x`, raises Construct by exactly
one and leaves the other eight counters as they were. -/
theorem construct_effect {T : Type} (I : Inner T) (x : T) (c : OpCounts)
    (h : (c.get Operation.Construct).val < INT_MAX) :
    (instrumented.value (instrumented.ctor_value_copy x c).1
        (instrumented.ctor_value_copy x c).2).1 = x ∧
    ((instrumented.ctor_value_copy x c).2.get Operation.Construct).val
      = (c.get Operation.Construct).val + 1 ∧
    (∀ op, op ≠ Operation.Construct →
      (instrumented.ctor_value_copy x c).2.get op = c.get op) ∧
    (instrumented.value (instrumented.ctor_value_move I x c).1
        (instrumented.ctor_value_move I x c).2.2).1 = x ∧
    ((instrumented.ctor_value_move I x c).2.2.get Operation.Construct).val
      = (c.get Operation.Construct).val + 1 ∧
    (∀ op, op ≠ Operation.Construct →
      (instrumented.ctor_value_move I x c).2.2.get op = c.get op) := by
  have hv : ((c.incr Operation.Construct).get Operation.Construct).val
      = (c.get Operation.Construct).val + 1 := by
    rw [OpCounts.get_incr_self]; exact CInt.preInc_val_of_lt _ h
  exact ⟨rfl, hv, fun op hop => OpCounts.get_incr_other c _ op hop,
    rfl, hv, fun op hop => OpCounts.get_incr_other c _ op hop⟩

/-- Witness of C3 on the reset table and the value 5. -/
theorem construct_effect_witness :
    (zeroed.get Operation.Construct).val < INT_MAX ∧
    ((instrumented.ctor_value_copy (5 : Int) zeroed).2.get Operation.Construct).val = 1 ∧
    ((instrumented.ctor_value_move (intInner 0) 5 zeroed).2.2.get
      Operation.Construct).val = 1 :=
  ⟨by decide, (construct_effect (intInner 0) 5 zeroed (by decide)).2.1,
    (construct_effect (intInner 0) 5 zeroed (by decide)).2.2.2.2.1⟩

/-- Counterexample to C3 as stated: on the table whose Construct counter holds
`INT_MAX`, constructing a wrapper from 5 leaves Construct at `INT_MIN`, which
is not the old count plus one. -/
theorem construct_overflow :
    ((instrumented.ctor_value_copy (5 : Int) saturated).2.get Operation.Construct).val
      = -2147483648 ∧
    ((instrumented.ctor_value_copy (5 : Int) saturated).2.get Operation.Construct).val
      ≠ (saturated.get Operation.Construct).val + 1 ∧
    ((instrumented.ctor_value_move (intInner 0) 5 saturated).2.2.get
      Operation.Construct).val ≠ (saturated.get Operation.Construct).val + 1 := by
  decide

/-! ## Copy and move construction -/

/-- C4, as amended: for every wrapper `a` and every counter table whose
CopyConstruct and MoveConstruct counters are below `INT_MAX`, copy construction
from `a` yields a wrapper holding the value of `a`, raises CopyConstruct by
exactly one and changes no other counter (MoveConstruct in particular), and in
the store the source object is left as it was; move construction from `a`
yields a wrapper holding the value `a` held, raises MoveConstruct by exactly
one and changes no other counter (CopyConstruct in particular). -/
theorem copy_move_construct_effect {T : Type} (I : Inner T) (a : instrumented T)
    (c : OpCounts)
    (hc : (c.get Operation.CopyConstruct).val < INT_MAX)
    (hm : (c.get Operation.MoveConstruct).val < INT_MAX) :
    ((instrumented.ctor_copy a c).1.t = a.t ∧
      ((instrumented.ctor_copy a c).2.get Operation.CopyConstruct).val
        = (c.get Operation.CopyConstruct).val + 1 ∧
      (∀ op, op ≠ Operation.CopyConstruct →
        (instrumented.ctor_copy a c).2.get op = c.get op) ∧
      (instrumented.ctor_copy a c).2.get Operation.MoveConstruct
        = c.get Operation.MoveConstruct) ∧
    (∀ (objs : List (Option (instrumented T))) (src : Nat),
      World.live ⟨c, objs⟩ src = some a →
      ∃ w, step I ⟨c, objs⟩ (Call.copy_construct src) = some w ∧
        w.counts = (instrumented.ctor_copy a c).2 ∧
        w.live src = some a ∧
        w.live objs.length = some (instrumented.ctor_copy a c).1) ∧
    ((instrumented.ctor_move I a c).1.t = a.t ∧
      ((instrumented.ctor_move I a c).2.2.get Operation.MoveConstruct).val
        = (c.get Operation.MoveConstruct).val + 1 ∧
      (∀ op, op ≠ Operation.MoveConstruct →
        (instrumented.ctor_move I a c).2.2.get op = c.get op) ∧
      (instrumented.ctor_move I a c).2.2.get Operation.CopyConstruct
        = c.get Operation.CopyConstruct) := by
  refine ⟨⟨rfl, ?_, fun op hop => OpCounts.get_incr_other c _ op hop,
      OpCounts.get_incr_other c _ _ (by decide)⟩, ?_,
    ⟨rfl, ?_, fun op hop => OpCounts.get_incr_other c _ op hop,
      OpCounts.get_incr_other c _ _ (by decide)⟩⟩
  · show ((c.incr Operation.CopyConstruct).get Operation.CopyConstruct).val = _
    rw [OpCounts.get_incr_self]; exact CInt.preInc_val_of_lt _ hc
  · intro objs src hlive
    refine ⟨⟨(instrumented.ctor_copy a c).2,
      objs ++ [some (instrumented.ctor_copy a c).1]⟩, ?_, rfl, ?_, ?_⟩
    · simp [step, hlive]
    · exact World.live_append ⟨c, objs⟩ _ _ src a hlive
    · exact World.live_new _ objs _
  · show ((c.incr Operation.MoveConstruct).get Operation.MoveConstruct).val = _
    rw [OpCounts.get_incr_self]; exact CInt.preInc_val_of_lt _ hm

/-- Witness of C4 on the reset table and a wrapper holding 3. -/
theorem copy_move_construct_effect_witness :
    (zeroed.get Operation.CopyConstruct).val < INT_MAX ∧
    (zeroed.get Operation.MoveConstruct).val < INT_MAX ∧
    (instrumented.ctor_copy (instrumented.mk (3 : Int)) zeroed).1.t = 3 ∧
    ((instrumented.ctor_copy (instrumented.mk (3 : Int)) zeroed).2.get
      Operation.CopyConstruct).val = 1 ∧
    ((instrumented.ctor_move (intInner 0) (instrumented.mk 3) zeroed).2.2.get
      Operation.MoveConstruct).val = 1 :=
  ⟨by decide, by decide,
    (copy_move_construct_effect (intInner 0) ⟨3⟩ zeroed (by decide) (by decide)).1.1,
    (copy_move_construct_effect (intInner 0) ⟨3⟩ zeroed (by decide) (by decide)).1.2.1,
    (copy_move_construct_effect (intInner 0) ⟨3⟩ zeroed (by decide)
      (by decide)).2.2.2.1⟩

/-- Counterexample to C4 as stated: on the table whose counters hold `INT_MAX`,
copy construction leaves CopyConstruct at `INT_MIN` and move construction
leaves MoveConstruct at `INT_MIN`, neither being the old count plus one. -/
theorem copy_move_construct_overflow :
    ((instrumented.ctor_copy (instrumented.mk (3 : Int)) saturated).2.get
      Operation.CopyConstruct).val = -2147483648 ∧
    ((instrumented.ctor_copy (instrumented.mk (3 : Int)) saturated).2.get
      Operation.CopyConstruct).val ≠ (saturated.get Operation.CopyConstruct).val + 1 ∧
    ((instrumented.ctor_move (intInner 0) (instrumented.mk 3) saturated).2.2.get
      Operation.MoveConstruct).val ≠ (saturated.get Operation.MoveConstruct).val + 1 := by
  decide

/-! ## Assignment -/

/-- C5, as amended: for all wrappers `a` and `b` and every counter table whose
CopyAssign and MoveAssign counters are below `INT_MAX`, copy assignment
`a = b` raises CopyAssign by exactly one and changes no other counter, returns
the assigned-to wrapper, which then holds the value of `b`, and in the store
leaves `b` as it was; move assignment `a = move(b)` raises MoveAssign by
exactly one and changes no other counter, and when `a` and `b` are distinct
objects it returns `a` holding the value `b` held before the move, leaving `b`
in the moved-from state of `T`; when `a` and `b` are the same object, `a` is
left holding what the self-move-assignment of `T` leaves. -/
theorem assign_effect {T : Type} (I : Inner T) (a b : instrumented T) (c : OpCounts)
    (hc : (c.get Operation.CopyAssign).val < INT_MAX)
    (hm : (c.get Operation.MoveAssign).val < INT_MAX) :
    ((instrumented.assign_copy a b c).1.t = b.t ∧
      ((instrumented.assign_copy a b c).2.get Operation.CopyAssign).val
        = (c.get Operation.CopyAssign).val + 1 ∧
      (∀ op, op ≠ Operation.CopyAssign →
        (instrumented.assign_copy a b c).2.get op = c.get op)) ∧
    (∀ (objs : List (Option (instrumented T))) (dst src : Nat),
      World.live ⟨c, objs⟩ dst = some a → World.live ⟨c, objs⟩ src = some b →
      ∃ w, step I ⟨c, objs⟩ (Call.copy_assign dst src) = some w ∧
        w.counts = (instrumented.assign_copy a b c).2 ∧
        w.live dst = some (instrumented.assign_copy a b c).1 ∧
        w.live src = some b) ∧
    ((instrumented.assign_move I a b c).1.t = b.t ∧
      ((instrumented.assign_move I a b c).2.2.get Operation.MoveAssign).val
        = (c.get Operation.MoveAssign).val + 1 ∧
      (∀ op, op ≠ Operation.MoveAssign →
        (instrumented.assign_move I a b c).2.2.get op = c.get op)) ∧
    (∀ (objs : List (Option (instrumented T))) (dst src : Nat), dst ≠ src →
      World.live ⟨c, objs⟩ dst = some a → World.live ⟨c, objs⟩ src = some b →
      ∃ w, step I ⟨c, objs⟩ (Call.move_assign dst src) = some w ∧
        w.counts = (instrumented.assign_move I a b c).2.2 ∧
        w.live dst = some ⟨b.t⟩ ∧
        w.live src = some ⟨I.movedFrom b.t⟩) ∧
    ((instrumented.assign_move_self I a c).1.t = I.selfMove a.t ∧
      ((instrumented.assign_move_self I a c).2.get Operation.MoveAssign).val
        = (c.get Operation.MoveAssign).val + 1 ∧
      (∀ op, op ≠ Operation.MoveAssign →
        (instrumented.assign_move_self I a c).2.get op = c.get op)) ∧
    (∀ (objs : List (Option (instrumented T))) (dst : Nat),
      World.live ⟨c, objs⟩ dst = some a →
      ∃ w, step I ⟨c, objs⟩ (Call.move_assign dst dst) = some w ∧
        w.counts = (instrumented.assign_move_self I a c).2 ∧
        w.live dst = some ⟨I.selfMove a.t⟩) := by
  have hmv : ((c.incr Operation.MoveAssign).get Operation.MoveAssign).val
      = (c.get Operation.MoveAssign).val + 1 := by
    rw [OpCounts.get_incr_self]; exact CInt.preInc_val_of_lt _ hm
  refine ⟨⟨rfl, ?_, fun op hop => OpCounts.get_incr_other c _ op hop⟩, ?_,
    ⟨rfl, hmv, fun op hop => OpCounts.get_incr_other c _ op hop⟩, ?_,
    ⟨rfl, hmv, fun op hop => OpCounts.get_incr_other c _ op hop⟩, ?_⟩
  · show ((c.incr Operation.CopyAssign).get Operation.CopyAssign).val = _
    rw [OpCounts.get_incr_self]; exact CInt.preInc_val_of_lt _ hc
  · intro objs dst src hdst hsrc
    refine ⟨⟨(instrumented.assign_copy a b c).2,
      objs.set dst (some (instrumented.assign_copy a b c).1)⟩, ?_, rfl, ?_, ?_⟩
    · simp [step, hdst, hsrc]
    · exact World.live_set_self _ objs dst _ (World.live_lt _ dst a hdst).1
    · by_cases hds : dst = src
      · subst hds
        have hb : (instrumented.assign_copy a b c).1 = b := rfl
        rw [hb]
        exact World.live_set_self _ objs dst _ (World.live_lt _ dst a hdst).1
      · rw [World.live_set_other ⟨c, objs⟩ _ _ dst src hds]
        exact hsrc
  · intro objs dst src hne hdst hsrc
    have hld : dst < objs.length := (World.live_lt _ dst a hdst).1
    have hls : src < objs.length := (World.live_lt _ src b hsrc).1
    refine ⟨⟨(instrumented.assign_move I a b c).2.2,
      (objs.set src (some ⟨I.movedFrom b.t⟩)).set dst (some ⟨b.t⟩)⟩, ?_, rfl, ?_, ?_⟩
    · simp [step, hdst, hsrc, hne, instrumented.assign_move]
    · exact World.live_set_self _ _ dst _ (by rw [List.length_set]; exact hld)
    · exact (World.live_set_other
        ⟨c, objs.set src (some ⟨I.movedFrom b.t⟩)⟩ _ _ dst src hne).trans
        (World.live_set_self _ objs src _ hls)
  · intro objs dst hdst
    refine ⟨⟨(instrumented.assign_move_self I a c).2,
      objs.set dst (some ⟨I.selfMove a.t⟩)⟩, ?_, rfl, ?_⟩
    · simp [step, hdst, instrumented.assign_move_self]
    · exact World.live_set_self _ objs dst _ (World.live_lt _ dst a hdst).1

/-- Witness of C5 on the reset table and wrappers holding 3 and 8, and in the
world `twoObjects` where the first wrapper is move-assigned from the second. -/
theorem assign_effect_witness :
    (zeroed.get Operation.CopyAssign).val < INT_MAX ∧
    (zeroed.get Operation.MoveAssign).val < INT_MAX ∧
    (instrumented.assign_copy (instrumented.mk (3 : Int)) ⟨8⟩ zeroed).1.t = 8 ∧
    ((instrumented.assign_copy (instrumented.mk (3 : Int)) ⟨8⟩ zeroed).2.get
      Operation.CopyAssign).val = 1 ∧
    ((instrumented.assign_move (intInner 0) ⟨3⟩ ⟨8⟩ zeroed).2.2.get
      Operation.MoveAssign).val = 1 ∧
    (∃ w, step (intInner 0) twoObjects (Call.move_assign 0 1) = some w ∧
      w.counts = (instrumented.assign_move (intInner 0) ⟨3⟩ ⟨8⟩ zeroed).2.2 ∧
      w.live 0 = some ⟨8⟩ ∧ w.live 1 = some ⟨(intInner 0).movedFrom 8⟩) :=
  ⟨by decide, by decide,
    (assign_effect (intInner 0) ⟨3⟩ ⟨8⟩ zeroed (by decide) (by decide)).1.1,
    (assign_effect (intInner 0) ⟨3⟩ ⟨8⟩ zeroed (by decide) (by decide)).1.2.1,
    (assign_effect (intInner 0) ⟨3⟩ ⟨8⟩ zeroed (by decide) (by decide)).2.2.1.2.1,
    (assign_effect (intInner 0) ⟨3⟩ ⟨8⟩ zeroed (by decide) (by decide)).2.2.2.1
      [some ⟨3⟩, some ⟨8⟩] 0 1 (by decide) rfl rfl⟩

/-- Counterexample to C5 as stated.  On the table whose counters hold
`INT_MAX`, copy assignment leaves CopyAssign at `INT_MIN` and move assignment
leaves MoveAssign at `INT_MIN`, neither being the old count plus one.  And for
a wrapper over `std::string` holding "abc", the move assignment of the wrapper
to itself leaves it holding the empty string, not the value held before the
move. -/
theorem assign_overflow_and_self_move :
    ((instrumented.assign_copy (instrumented.mk (3 : Int)) ⟨8⟩ saturated).2.get
      Operation.CopyAssign).val = -2147483648 ∧
    ((instrumented.assign_copy (instrumented.mk (3 : Int)) ⟨8⟩ saturated).2.get
      Operation.CopyAssign).val ≠ (saturated.get Operation.CopyAssign).val + 1 ∧
    ((instrumented.assign_move (intInner 0) ⟨3⟩ ⟨8⟩ saturated).2.2.get
      Operation.MoveAssign).val ≠ (saturated.get Operation.MoveAssign).val + 1 ∧
    (∃ w, step stringInner ⟨zeroed, [some ⟨"abc"⟩]⟩ (Call.move_assign 0 0) = some w ∧
      World.live ⟨zeroed, [some (instrumented.mk "abc")]⟩ 0 = some ⟨"abc"⟩ ∧
      w.live 0 = some ⟨""⟩ ∧
      w.live 0 ≠ some ⟨"abc"⟩ ∧
      (w.counts.get Operation.MoveAssign).val = 1) :=
  ⟨by decide, by decide, by decide, _, rfl, rfl, rfl, by decide, rfl⟩

/-! ## Destruction -/

/-- C6, as amended: for every list of `N` wrappers (whatever they hold, a
moved-from value included) and every counter table in which the Destruct
counter plus `N` does not exceed `INT_MAX`, destroying the `N` wrappers raises
Destruct by exactly `N` and leaves the other eight counters as they were. -/
theorem destroy_effect {T : Type} (objs : List (instrumented T)) (c : OpCounts)
    (h : (c.get Operation.Destruct).val + (objs.length : Nat) ≤ INT_MAX) :
    ((destroyAll objs c).get Operation.Destruct).val
      = (c.get Operation.Destruct).val + (objs.length : Nat) ∧
    (∀ op, op ≠ Operation.Destruct → (destroyAll objs c).get op = c.get op) := by
  refine ⟨?_, destroyAll_other objs c⟩
  rw [destroyAll_val]
  have hlo := (c.get Operation.Destruct).lo
  unfold INT_MAX at h
  unfold wrap32
  omega

/-- Witness of C6: three wrappers over `int`, one of them in the state a move
leaves behind, destroyed from the reset table. -/
theorem destroy_effect_witness :
    (zeroed.get Operation.Destruct).val
        + (([⟨3⟩, ⟨(intInner 0).movedFrom 8⟩, ⟨5⟩] : List (instrumented Int)).length : Nat)
      ≤ INT_MAX ∧
    ((destroyAll ([⟨3⟩, ⟨(intInner 0).movedFrom 8⟩, ⟨5⟩] : List (instrumented Int))
        zeroed).get Operation.Destruct).val
      = (zeroed.get Operation.Destruct).val
        + (([⟨3⟩, ⟨(intInner 0).movedFrom 8⟩, ⟨5⟩] : List (instrumented Int)).length : Nat) :=
  ⟨by decide,
    (destroy_effect ([⟨3⟩, ⟨(intInner 0).movedFrom 8⟩, ⟨5⟩] : List (instrumented Int))
      zeroed (by decide)).1⟩

/-- Counterexample to C6 as stated: with `N = 1` on the table whose Destruct
counter holds `INT_MAX`, the counter ends at `INT_MIN`, not one higher. -/
theorem destroy_overflow :
    ((destroyAll [instrumented.mk (3 : Int)] saturated).get Operation.Destruct).val
      = -2147483648 ∧
    ((destroyAll [instrumented.mk (3 : Int)] saturated).get Operation.Destruct).val
      ≠ (saturated.get Operation.Destruct).val
        + (([instrumented.mk (3 : Int)] : List (instrumented Int)).length : Nat) := by
  decide

/-! ## Equality and ordering -/

/-- C7, as amended: for all wrappers `a` and `b` and every counter table whose
Equality counter is below `INT_MAX`, `a == b` returns the result of the inner
equality on the two held values, raises Equality by exactly one whatever the
result, changes no other counter, and leaves every stored wrapper as it
was. -/
theorem equality_effect {T : Type} (I : Inner T) (a b : instrumented T) (c : OpCounts)
    (h : (c.get Operation.Equality).val < INT_MAX) :
    (instrumented.op_eq I a b c).1 = I.eq a.t b.t ∧
    ((instrumented.op_eq I a b c).2.get Operation.Equality).val
      = (c.get Operation.Equality).val + 1 ∧
    (∀ op, op ≠ Operation.Equality → (instrumented.op_eq I a b c).2.get op = c.get op) ∧
    (∀ (objs : List (Option (instrumented T))) (i j : Nat),
      World.live ⟨c, objs⟩ i = some a → World.live ⟨c, objs⟩ j = some b →
      step I ⟨c, objs⟩ (Call.equal i j)
        = some ⟨(instrumented.op_eq I a b c).2, objs⟩) := by
  refine ⟨rfl, ?_, fun op hop => OpCounts.get_incr_other c _ op hop, ?_⟩
  · show ((c.incr Operation.Equality).get Operation.Equality).val = _
    rw [OpCounts.get_incr_self]; exact CInt.preInc_val_of_lt _ h
  · intro objs i j hi hj
    simp [step, hi, hj]

/-- Witness of C7 on the reset table: one comparison that is false and one
that is true, each raising Equality from 0 to 1. -/
theorem equality_effect_witness :
    (zeroed.get Operation.Equality).val < INT_MAX ∧
    (instrumented.op_eq (intInner 0) ⟨3⟩ ⟨8⟩ zeroed).1 = false ∧
    ((instrumented.op_eq (intInner 0) ⟨3⟩ ⟨8⟩ zeroed).2.get Operation.Equality).val = 1 ∧
    (instrumented.op_eq (intInner 0) ⟨3⟩ ⟨3⟩ zeroed).1 = true ∧
    ((instrumented.op_eq (intInner 0) ⟨3⟩ ⟨3⟩ zeroed).2.get Operation.Equality).val = 1 :=
  ⟨by decide,
    (equality_effect (intInner 0) ⟨3⟩ ⟨8⟩ zeroed (by decide)).1,
    (equality_effect (intInner 0) ⟨3⟩ ⟨8⟩ zeroed (by decide)).2.1,
    (equality_effect (intInner 0) ⟨3⟩ ⟨3⟩ zeroed (by decide)).1,
    (equality_effect (intInner 0) ⟨3⟩ ⟨3⟩ zeroed (by decide)).2.1⟩

/-- Counterexample to C7 as stated: on the table whose Equality counter holds
`INT_MAX`, `a == b` leaves Equality at `INT_MIN`, not one higher. -/
theorem equality_overflow :
    ((instrumented.op_eq (intInner 0) ⟨3⟩ ⟨8⟩ saturated).2.get Operation.Equality).val
      = -2147483648 ∧
    ((instrumented.op_eq (intInner 0) ⟨3⟩ ⟨8⟩ saturated).2.get Operation.Equality).val
      ≠ (saturated.get Operation.Equality).val + 1 := by
  decide

/-- C8, as amended: for all wrappers `a` and `b` and every counter table whose
Comparison counter is below `INT_MAX`, each of `a < b`, `a > b`, `a <= b` and
`a >= b` raises Comparison by exactly one and changes no other counter,
Equality in particular. -/
theorem comparison_effect {T : Type} (I : Inner T) (a b : instrumented T) (c : OpCounts)
    (h : (c.get Operation.Comparison).val < INT_MAX) :
    (((instrumented.op_lt I a b c).2.get Operation.Comparison).val
        = (c.get Operation.Comparison).val + 1 ∧
      (∀ op, op ≠ Operation.Comparison → (instrumented.op_lt I a b c).2.get op = c.get op) ∧
      (instrumented.op_lt I a b c).2.get Operation.Equality = c.get Operation.Equality) ∧
    (((instrumented.op_gt I a b c).2.get Operation.Comparison).val
        = (c.get Operation.Comparison).val + 1 ∧
      (∀ op, op ≠ Operation.Comparison → (instrumented.op_gt I a b c).2.get op = c.get op) ∧
      (instrumented.op_gt I a b c).2.get Operation.Equality = c.get Operation.Equality) ∧
    (((instrumented.op_le I a b c).2.get Operation.Comparison).val
        = (c.get Operation.Comparison).val + 1 ∧
      (∀ op, op ≠ Operation.Comparison → (instrumented.op_le I a b c).2.get op = c.get op) ∧
      (instrumented.op_le I a b c).2.get Operation.Equality = c.get Operation.Equality) ∧
    (((instrumented.op_ge I a b c).2.get Operation.Comparison).val
        = (c.get Operation.Comparison).val + 1 ∧
      (∀ op, op ≠ Operation.Comparison → (instrumented.op_ge I a b c).2.get op = c.get op) ∧
      (instrumented.op_ge I a b c).2.get Operation.Equality = c.get Operation.Equality) := by
  have hv : ((c.incr Operation.Comparison).get Operation.Comparison).val
      = (c.get Operation.Comparison).val + 1 := by
    rw [OpCounts.get_incr_self]; exact CInt.preInc_val_of_lt _ h
  have hf : ∀ op, op ≠ Operation.Comparison →
      (c.incr Operation.Comparison).get op = c.get op :=
    fun op hop => OpCounts.get_incr_other c _ op hop
  have he := hf Operation.Equality (by decide)
  exact ⟨⟨hv, hf, he⟩, ⟨hv, hf, he⟩, ⟨hv, hf, he⟩, ⟨hv, hf, he⟩⟩

/-- Witness of C8 on the reset table and wrappers holding 3 and 8: each of the
four comparisons raises Comparison from 0 to 1. -/
theorem comparison_effect_witness :
    (zeroed.get Operation.Comparison).val < INT_MAX ∧
    ((instrumented.op_lt (intInner 0) ⟨3⟩ ⟨8⟩ zeroed).2.get Operation.Comparison).val = 1 ∧
    ((instrumented.op_gt (intInner 0) ⟨3⟩ ⟨8⟩ zeroed).2.get Operation.Comparison).val = 1 ∧
    ((instrumented.op_le (intInner 0) ⟨3⟩ ⟨8⟩ zeroed).2.get Operation.Comparison).val = 1 ∧
    ((instrumented.op_ge (intInner 0) ⟨3⟩ ⟨8⟩ zeroed).2.get Operation.Comparison).val = 1 :=
  ⟨by decide,
    (comparison_effect (intInner 0) ⟨3⟩ ⟨8⟩ zeroed (by decide)).1.1,
    (comparison_effect (intInner 0) ⟨3⟩ ⟨8⟩ zeroed (by decide)).2.1.1,
    (comparison_effect (intInner 0) ⟨3⟩ ⟨8⟩ zeroed (by decide)).2.2.1.1,
    (comparison_effect (intInner 0) ⟨3⟩ ⟨8⟩ zeroed (by decide)).2.2.2.1⟩

/-- Counterexample to C8 as stated: on the table whose Comparison counter holds
`INT_MAX`, each of the four comparisons leaves Comparison at `INT_MIN`, not one
higher. -/
theorem comparison_overflow :
    ((instrumented.op_lt (intInner 0) ⟨3⟩ ⟨8⟩ saturated).2.get Operation.Comparison).val
      = -2147483648 ∧
    ((instrumented.op_lt (intInner 0) ⟨3⟩ ⟨8⟩ saturated).2.get Operation.Comparison).val
      ≠ (saturated.get Operation.Comparison).val + 1 ∧
    ((instrumented.op_gt (intInner 0) ⟨3⟩ ⟨8⟩ saturated).2.get Operation.Comparison).val
      ≠ (saturated.get Operation.Comparison).val + 1 ∧
    ((instrumented.op_le (intInner 0) ⟨3⟩ ⟨8⟩ saturated).2.get Operation.Comparison).val
      ≠ (saturated.get Operation.Comparison).val + 1 ∧
    ((instrumented.op_ge (intInner 0) ⟨3⟩ ⟨8⟩ saturated).2.get Operation.Comparison).val
      ≠ (saturated.get Operation.Comparison).val + 1 := by
  decide

/-- C9: `a < b` returns the inner less-than of the held values, and the derived
comparisons are that one comparison: `a > b` returns what `b < a` returns,
`a <= b` the negation of what `b < a` returns, `a >= b` the negation of what
`a < b` returns. -/
theorem comparison_results {T : Type} (I : Inner T) (a b : instrumented T)
    (c : OpCounts) :
    (instrumented.op_lt I a b c).1 = I.lt a.t b.t ∧
    (instrumented.op_gt I a b c).1 = (instrumented.op_lt I b a c).1 ∧
    (instrumented.op_le I a b c).1 = !(instrumented.op_lt I b a c).1 ∧
    (instrumented.op_ge I a b c).1 = !(instrumented.op_lt I a b c).1 ∧
    (instrumented.op_gt I a b c).1 = I.lt b.t a.t ∧
    (instrumented.op_le I a b c).1 = !I.lt b.t a.t ∧
    (instrumented.op_ge I a b c).1 = !I.lt a.t b.t :=
  ⟨rfl, rfl, rfl, rfl, rfl, rfl, rfl⟩

/-! ## Value access -/

theorem OpCounts.subscript_op (c : OpCounts) (op : Operation) :
    c.subscript (op.toNat : Int) = some (c.get op) := by
  cases op <;> rfl

theorem output_op_names_text (s : ostream) (c : OpCounts) :
    instrumented.output_op_names s c
      = some (⟨s.text ++ "default construct,construct,copy construct,move construct,copy assign,move assign,destruct,equality,comparison\n"⟩, c) := by
  simp only [instrumented.output_op_names, get_op_name, s_name, List.range',
    ostream.put_char, ostream.put_cstr]
  simp
  apply String.ext
  simp only [String.data_append, String.data_push, List.append_assoc]
  rfl

theorem output_op_counts_text (s : ostream) (c : OpCounts) :
    instrumented.output_op_counts s c
      = some (⟨s.text ++ decimal (c.get .DefaultConstruct).val
          ++ "," ++ decimal (c.get .Construct).val
          ++ "," ++ decimal (c.get .CopyConstruct).val
          ++ "," ++ decimal (c.get .MoveConstruct).val
          ++ "," ++ decimal (c.get .CopyAssign).val
          ++ "," ++ decimal (c.get .MoveAssign).val
          ++ "," ++ decimal (c.get .Destruct).val
          ++ "," ++ decimal (c.get .Equality).val
          ++ "," ++ decimal (c.get .Comparison).val ++ "\n"⟩, c) := by
  have h0 := OpCounts.subscript_op c .DefaultConstruct
  have h1 := OpCounts.subscript_op c .Construct
  have h2 := OpCounts.subscript_op c .CopyConstruct
  have h3 := OpCounts.subscript_op c .MoveConstruct
  have h4 := OpCounts.subscript_op c .CopyAssign
  have h5 := OpCounts.subscript_op c .MoveAssign
  have h6 := OpCounts.subscript_op c .Destruct
  have h7 := OpCounts.subscript_op c .Equality
  have h8 := OpCounts.subscript_op c .Comparison
  simp only [Operation.toNat, Nat.cast_ofNat, Nat.cast_zero, Nat.cast_one]
    at h0 h1 h2 h3 h4 h5 h6 h7 h8
  simp only [instrumented.output_op_counts, List.range', List.foldlM, ostream.put_char,
    ostream.put_int, Nat.cast_ofNat, Nat.cast_one, Nat.reduceAdd, Nat.reduceSub,
    h0, h1, h2, h3, h4, h5, h6, h7, h8,
    Option.map_some', Option.some_bind, Option.bind_eq_bind, bind_pure_comp, pure_bind]
  simp
  apply String.ext
  simp [String.data_append, String.data_push]

/-! ## Reset -/

/-- C11: `reset_op_counts()` yields the table whose nine counters are all
zero, whatever the counts were before; so it is idempotent and its result does
not depend on the prior table; and in the store it leaves every wrapper
object as it was. -/
theorem reset_effect {T : Type} (I : Inner T) (w : World T) (c c2 : OpCounts) :
    (∀ i : Fin MaxOps, ((instrumented.reset_op_counts c).cell i).val = 0) ∧
    (∀ op : Operation, ((instrumented.reset_op_counts c).get op).val = 0) ∧
    instrumented.reset_op_counts (instrumented.reset_op_counts c)
      = instrumented.reset_op_counts c ∧
    instrumented.reset_op_counts c = instrumented.reset_op_counts c2 ∧
    step I w Call.reset = some ⟨instrumented.reset_op_counts w.counts, w.objs⟩ ∧
    (∀ i : Nat, World.live ⟨instrumented.reset_op_counts w.counts, w.objs⟩ i = w.live i) :=
  ⟨fun _ => rfl, fun _ => rfl, rfl, rfl, rfl, fun _ => rfl⟩

/-! ## The names line and the counts line -/

/-- C12: `output_op_names` appends to the stream exactly the text
"default construct,construct,copy construct,move construct,copy assign,move
assign,destruct,equality,comparison" followed by a newline, which is the nine
names `get_op_name(0)`, ..., `get_op_name(8)` joined by single commas; the
text is the same for every counter table, and the table is returned as it
was. -/
theorem names_line (s : ostream) (c c2 : OpCounts) :
    instrumented.output_op_names s c
      = some (⟨s.text ++ "default construct,construct,copy construct,move construct,copy assign,move assign,destruct,equality,comparison\n"⟩, c) ∧
    (List.range MaxOps).map (fun i => get_op_name (i : Nat))
      = [some "default construct", some "construct", some "copy construct",
         some "move construct", some "copy assign", some "move assign",
         some "destruct", some "equality", some "comparison"] ∧
    "default construct,construct,copy construct,move construct,copy assign,move assign,destruct,equality,comparison\n"
      = String.intercalate ","
          ((List.range MaxOps).filterMap (fun i => get_op_name (i : Nat))) ++ "\n" ∧
    (instrumented.output_op_names s c).map Prod.fst
      = (instrumented.output_op_names s c2).map Prod.fst ∧
    (instrumented.output_op_names s c).map Prod.snd = some c := by
  refine ⟨output_op_names_text s c, by decide, by decide, ?_, ?_⟩
  · rw [output_op_names_text, output_op_names_text]; rfl
  · rw [output_op_names_text]; rfl

/-- C13: `output_op_counts` appends to the stream exactly the decimal
renderings of the nine counters in enumeration order, DefaultConstruct first
and Comparison last, joined by single commas and followed by one newline, and
returns the counter table as it was. -/
theorem counts_line (s : ostream) (c : OpCounts) :
    instrumented.output_op_counts s c
      = some (⟨s.text ++ decimal (c.get .DefaultConstruct).val
          ++ "," ++ decimal (c.get .Construct).val
          ++ "," ++ decimal (c.get .CopyConstruct).val
          ++ "," ++ decimal (c.get .MoveConstruct).val
          ++ "," ++ decimal (c.get .CopyAssign).val
          ++ "," ++ decimal (c.get .MoveAssign).val
          ++ "," ++ decimal (c.get .Destruct).val
          ++ "," ++ decimal (c.get .Equality).val
          ++ "," ++ decimal (c.get .Comparison).val ++ "\n"⟩, c) ∧
    (instrumented.output_op_counts s c).map Prod.snd = some c ∧
    decimal 0 = "0" ∧ decimal 42 = "42" ∧ decimal 2147483647 = "2147483647" ∧
    decimal (-2147483648) = "-2147483648" := by
  refine ⟨output_op_counts_text s c, ?_, by decide, by decide, by decide, by decide⟩
  rw [output_op_counts_text]; rfl

/-- C15: after `reset_op_counts()`, constructing two wrappers directly from
two integer values (through either overload) and then calling
`output_op_counts` on an empty stream writes the line "0,2,0,0,0,0,0,0,0"
with its newline: Construct is 2 and every other counter is 0. -/
theorem two_constructions_line (x y d : Int) (c0 : OpCounts) :
    instrumented.output_op_counts ⟨""⟩
        (instrumented.ctor_value_move (intInner d) y
          (instrumented.ctor_value_move (intInner d) x
            (instrumented.reset_op_counts c0)).2.2).2.2
      = some (⟨"0,2,0,0,0,0,0,0,0\n"⟩,
          (instrumented.ctor_value_move (intInner d) y
            (instrumented.ctor_value_move (intInner d) x
              (instrumented.reset_op_counts c0)).2.2).2.2) ∧
    instrumented.output_op_counts ⟨""⟩
        (instrumented.ctor_value_copy y
          (instrumented.ctor_value_copy x (instrumented.reset_op_counts c0)).2).2
      = some (⟨"0,2,0,0,0,0,0,0,0\n"⟩,
          (instrumented.ctor_value_copy y
            (instrumented.ctor_value_copy x (instrumented.reset_op_counts c0)).2).2) ∧
    (∀ w0 : World Int, ∃ w,
      run (intInner d) [Call.reset, Call.construct_move x, Call.construct_move y] w0
        = some w ∧
      (instrumented.output_op_counts ⟨""⟩ w.counts).map Prod.fst
        = some ⟨"0,2,0,0,0,0,0,0,0\n"⟩) :=
  ⟨rfl, rfl, fun _ => ⟨_, rfl, rfl⟩⟩

/-! ## Default construction -/

/-- C16, as amended: for every inner type with a default initialisation and
every counter table whose DefaultConstruct counter is below `INT_MAX`, default
construction yields a wrapper holding a default-initialised `T`, raises
DefaultConstruct by exactly one and leaves the other eight counters as they
were. -/
theorem default_construct_effect {T : Type} (I : Inner T) (c : OpCounts)
    (h : (c.get Operation.DefaultConstruct).val < INT_MAX) :
    (instrumented.value (instrumented.ctor_default I c).1
        (instrumented.ctor_default I c).2).1 = I.dflt ∧
    ((instrumented.ctor_default I c).2.get Operation.DefaultConstruct).val
      = (c.get Operation.DefaultConstruct).val + 1 ∧
    (∀ op, op ≠ Operation.DefaultConstruct →
      (instrumented.ctor_default I c).2.get op = c.get op) := by
  refine ⟨rfl, ?_, fun op hop => OpCounts.get_incr_other c _ op hop⟩
  show ((c.incr Operation.DefaultConstruct).get Operation.DefaultConstruct).val = _
  rw [OpCounts.get_incr_self]; exact CInt.preInc_val_of_lt _ h

/-- Witness of C16 on the reset table. -/
theorem default_construct_effect_witness :
    (zeroed.get Operation.DefaultConstruct).val < INT_MAX ∧
    ((instrumented.ctor_default (intInner 0) zeroed).2.get
      Operation.DefaultConstruct).val = 1 ∧
    (instrumented.ctor_default (intInner 0) zeroed).2.get Operation.Destruct
      = zeroed.get Operation.Destruct :=
  ⟨by decide, (default_construct_effect (intInner 0) zeroed (by decide)).2.1,
    (default_construct_effect (intInner 0) zeroed (by decide)).2.2
      Operation.Destruct (by decide)⟩

/-- Counterexample to C16 as stated: on the table whose DefaultConstruct
counter holds `INT_MAX`, default construction leaves it at `INT_MIN`, not one
higher. -/
theorem default_construct_overflow :
    ((instrumented.ctor_default (intInner 0) saturated).2.get
      Operation.DefaultConstruct).val = -2147483648 ∧
    ((instrumented.ctor_default (intInner 0) saturated).2.get
      Operation.DefaultConstruct).val
      ≠ (saturated.get Operation.DefaultConstruct).val + 1 := by
  decide

/-! ## Alignment of the two lines -/

theorem digitChar_plain (m : Nat) (h : m < 10) :
    Nat.digitChar m ≠ ',' ∧ Nat.digitChar m ≠ '\n' := by
  interval_cases m <;> decide

theorem toDigitsCore_plain (fuel : Nat) :
    ∀ (n : Nat) (ds : List Char), (∀ ch ∈ ds, ch ≠ ',' ∧ ch ≠ '\n') →
      ∀ ch ∈ Nat.toDigitsCore 10 fuel n ds, ch ≠ ',' ∧ ch ≠ '\n' := by
  induction fuel with
  | zero => intro n ds h ch hch; exact h ch (by simpa [Nat.toDigitsCore] using hch)
  | succ f ih =>
    intro n ds h ch hch
    have hd := digitChar_plain (n % 10) (Nat.mod_lt n (by decide))
    have hcons : ∀ x ∈ Nat.digitChar (n % 10) :: ds, x ≠ ',' ∧ x ≠ '\n' := by
      intro x hx
      rcases List.mem_cons.mp hx with hx | hx
      · rw [hx]; exact hd
      · exact h x hx
    simp only [Nat.toDigitsCore] at hch
    split at hch
    · exact hcons ch hch
    · exact ih (n / 10) _ hcons ch hch

theorem decimal_plain (z : Int) : ∀ ch ∈ (decimal z).data, ch ≠ ',' ∧ ch ≠ '\n' := by
  intro ch hch
  cases z with
  | ofNat n =>
    exact toDigitsCore_plain _ n [] (by simp) ch (by simpa [decimal, Nat.toDigits] using hch)
  | negSucc n =>
    simp only [decimal, List.mem_cons] at hch
    rcases hch with hch | hch
    · rw [hch]; decide
    · exact toDigitsCore_plain _ (n + 1) [] (by simp) ch (by simpa [Nat.toDigits] using hch)

theorem splitFields_noSep (sep : Char) (a : List Char) (h : ∀ ch ∈ a, ch ≠ sep) :
    splitFields sep a = [a] := by
  induction a with
  | nil => rfl
  | cons x rest ih =>
    have hx : x ≠ sep := h x (List.mem_cons_self x rest)
    have hr := ih (fun ch hch => h ch (List.mem_cons_of_mem x hch))
    simp [splitFields, hx, hr]

theorem splitFields_append (sep : Char) (a r : List Char) (h : ∀ ch ∈ a, ch ≠ sep) :
    splitFields sep (a ++ sep :: r) = a :: splitFields sep r := by
  induction a with
  | nil => simp [splitFields]
  | cons x rest ih =>
    have hx : x ≠ sep := h x (List.mem_cons_self x rest)
    have hr := ih (fun ch hch => h ch (List.mem_cons_of_mem x hch))
    simp [splitFields, hx, hr]

theorem stripNewline_concat (x : List Char) : stripNewline (x ++ ['\n']) = x := by
  simp [stripNewline]

theorem fields_nine (d0 d1 d2 d3 d4 d5 d6 d7 d8 : String)
    (h0 : ∀ ch ∈ d0.data, ch ≠ ',') (h1 : ∀ ch ∈ d1.data, ch ≠ ',')
    (h2 : ∀ ch ∈ d2.data, ch ≠ ',') (h3 : ∀ ch ∈ d3.data, ch ≠ ',')
    (h4 : ∀ ch ∈ d4.data, ch ≠ ',') (h5 : ∀ ch ∈ d5.data, ch ≠ ',')
    (h6 : ∀ ch ∈ d6.data, ch ≠ ',') (h7 : ∀ ch ∈ d7.data, ch ≠ ',')
    (h8 : ∀ ch ∈ d8.data, ch ≠ ',') :
    fields ("" ++ d0 ++ "," ++ d1 ++ "," ++ d2 ++ "," ++ d3 ++ "," ++ d4 ++ ","
        ++ d5 ++ "," ++ d6 ++ "," ++ d7 ++ "," ++ d8 ++ "\n")
      = [d0, d1, d2, d3, d4, d5, d6, d7, d8] := by
  have hc : (",": String).data = [','] := rfl
  have hn : ("\n": String).data = ['\n'] := rfl
  have he : ("": String).data = [] := rfl
  have hdata : ("" ++ d0 ++ "," ++ d1 ++ "," ++ d2 ++ "," ++ d3 ++ "," ++ d4 ++ ","
        ++ d5 ++ "," ++ d6 ++ "," ++ d7 ++ "," ++ d8 ++ "\n").data
      = (d0.data ++ ',' :: (d1.data ++ ',' :: (d2.data ++ ',' :: (d3.data ++ ',' ::
          (d4.data ++ ',' :: (d5.data ++ ',' :: (d6.data ++ ',' :: (d7.data ++ ',' ::
            d8.data)))))))) ++ ['\n'] := by
    simp only [String.data_append, hc, hn, he, List.append_assoc, List.nil_append,
      List.cons_append]
  unfold fields
  rw [hdata, stripNewline_concat, splitFields_append _ _ _ h0, splitFields_append _ _ _ h1,
    splitFields_append _ _ _ h2, splitFields_append _ _ _ h3, splitFields_append _ _ _ h4,
    splitFields_append _ _ _ h5, splitFields_append _ _ _ h6, splitFields_append _ _ _ h7,
    splitFields_noSep _ _ h8]
  rfl

/-- C14: for every counter table, the names line and the counts line written
to an empty stream each have exactly nine comma-separated fields once the
trailing newline is stripped, and for every `i` in `0..8` field `i` of the
names line is `get_op_name(i)` and field `i` of the counts line is the decimal
rendering of counter `i`. -/
theorem lines_aligned (c : OpCounts) :
    ∃ names counts : String,
      instrumented.output_op_names ⟨""⟩ c = some (⟨names⟩, c) ∧
      instrumented.output_op_counts ⟨""⟩ c = some (⟨counts⟩, c) ∧
      (fields names).length = 9 ∧ (fields counts).length = 9 ∧
      ∀ i : Fin MaxOps,
        (fields names)[i.val]? = get_op_name (i.val : Nat) ∧
        (fields counts)[i.val]? = some (decimal (c.cell i).val) := by
  have hf := fields_nine
    (decimal (c.get .DefaultConstruct).val) (decimal (c.get .Construct).val)
    (decimal (c.get .CopyConstruct).val) (decimal (c.get .MoveConstruct).val)
    (decimal (c.get .CopyAssign).val) (decimal (c.get .MoveAssign).val)
    (decimal (c.get .Destruct).val) (decimal (c.get .Equality).val)
    (decimal (c.get .Comparison).val)
    (fun ch h => (decimal_plain _ ch h).1) (fun ch h => (decimal_plain _ ch h).1)
    (fun ch h => (decimal_plain _ ch h).1) (fun ch h => (decimal_plain _ ch h).1)
    (fun ch h => (decimal_plain _ ch h).1) (fun ch h => (decimal_plain _ ch h).1)
    (fun ch h => (decimal_plain _ ch h).1) (fun ch h => (decimal_plain _ ch h).1)
    (fun ch h => (decimal_plain _ ch h).1)
  have hnames : fields ((⟨""⟩ : ostream).text ++ "default construct,construct,copy construct,move construct,copy assign,move assign,destruct,equality,comparison\n")
      = s_name := by decide
  refine ⟨_, _, output_op_names_text ⟨""⟩ c, output_op_counts_text ⟨""⟩ c, ?_, ?_, ?_⟩
  · rw [hnames]; rfl
  · rw [hf]; rfl
  · intro i
    rw [hnames, hf]
    fin_cases i <;> exact ⟨rfl, rfl⟩

/-! ## Sign of the counters -/

theorem run_cons_reset {T : Type} (I : Inner T) (ks : List (Call T)) (w : World T) :
    run I (Call.reset :: ks) w
      = run I ks ⟨instrumented.reset_op_counts w.counts, w.objs⟩ := rfl

theorem Call.eq_reset_of_isReset {T : Type} (k : Call T) (h : k.isReset = true) :
    k = Call.reset := by
  cases k <;> first | rfl | (exact absurd h (by simp [Call.isReset]))

theorem step_bounded {T : Type} (I : Inner T) (w w2 : World T) (k : Call T)
    (h : step I w k = some w2) (op : Operation)
    (h0 : 0 ≤ (w.counts.get op).val)
    (hb : (w.counts.get op).val + (if k.kind = some op then 1 else 0) ≤ INT_MAX) :
    0 ≤ (w2.counts.get op).val ∧
    (w2.counts.get op).val
      ≤ (w.counts.get op).val + (if k.kind = some op then 1 else 0) := by
  cases hr : k.isReset with
  | true =>
    have hk := Call.eq_reset_of_isReset k hr
    subst hk
    simp only [step, Option.some.injEq] at h
    subst h
    have hz : ((instrumented.reset_op_counts w.counts).get op).val = 0 := rfl
    simp only [hz, Call.kind]
    omega
  | false =>
    have hv := step_counts_val I w w2 k h hr op
    unfold INT_MAX at hb
    rw [hv]
    unfold wrap32
    split at hb <;> simp_all <;> omega

theorem run_bounded {T : Type} (I : Inner T) (op : Operation) (calls : List (Call T)) :
    ∀ (w w2 : World T), run I calls w = some w2 →
      0 ≤ (w.counts.get op).val →
      (w.counts.get op).val + (occurrences op calls : Nat) ≤ INT_MAX →
      0 ≤ (w2.counts.get op).val ∧
      (w2.counts.get op).val ≤ (w.counts.get op).val + (occurrences op calls : Nat) := by
  induction calls with
  | nil =>
    intro w w2 h h0 _
    simp only [run, Option.some.injEq] at h
    subst h
    simp [occurrences, h0]
  | cons k ks ih =>
    intro w w2 h h0 hb
    simp only [run, Option.bind_eq_some] at h
    obtain ⟨w1, h1, h2⟩ := h
    have hocc : (occurrences op (k :: ks) : Int)
        = (if k.kind = some op then 1 else 0) + (occurrences op ks : Nat) := by
      by_cases hkk : k.kind = some op
      · simp [occurrences, List.countP_cons, hkk]; ring
      · simp [occurrences, List.countP_cons, hkk]
    rw [hocc] at hb ⊢
    have hnn : (0 : Int) ≤ (occurrences op ks : Nat) := Int.natCast_nonneg _
    have hs := step_bounded I w w1 k h1 op h0 (by omega)
    have hr := ih w1 w2 h2 hs.1 (by omega)
    exact ⟨hr.1, by omega⟩

theorem longLoop_equality (c : OpCounts) :
    ∃ w, run (intInner 0) longLoop ⟨c, []⟩ = some w ∧
      (w.counts.get Operation.Equality).val
        = wrap32 ((c.get Operation.Equality).val + 2147483648) := by
  have hocc : occurrences Operation.Equality longLoop = 2147483648 := by
    have h := occurrences_replicate_equal (T := Int) 2147483648 0 0
    have hk : (Call.default_construct : Call Int).kind ≠ some Operation.Equality := by
      decide
    unfold longLoop
    unfold occurrences at h ⊢
    rw [List.countP_cons_of_neg _ _ (by simpa using hk)]
    exact h
  have hnr : ∀ k ∈ longLoop, k.isReset = false := by
    intro k hk
    unfold longLoop at hk
    rcases List.mem_cons.mp hk with h | h
    · subst h; rfl
    · rw [List.eq_of_mem_replicate h]; rfl
  obtain ⟨w, hw⟩ := run_replicate_equal (intInner 0) 2147483648
    ⟨c.incr Operation.DefaultConstruct,
      [] ++ [some (instrumented.mk (intInner 0).dflt)]⟩ (instrumented.mk 0)
    (by simp [World.live, intInner])
  have hrun : run (intInner 0) longLoop ⟨c, []⟩ = some w := by
    unfold longLoop
    rw [run_cons_default]
    exact hw
  refine ⟨w, hrun, ?_⟩
  have h := run_counts_val (intInner 0) longLoop _ w hrun hnr Operation.Equality
  rw [h, hocc]
  rfl

/-- C17, as amended: in every state reached from the zero-initialised counter
table by a finite sequence of wrapper operations and resets, every counter
whose kind of operation occurs at most `INT_MAX` times in the sequence is
non-negative, and it is at most the number of those occurrences. -/
theorem counters_nonneg {T : Type} (I : Inner T) (calls : List (Call T))
    (objs0 : List (Option (instrumented T))) (w : World T)
    (hrun : run I calls ⟨initialCounts, objs0⟩ = some w)
    (op : Operation) (hb : (occurrences op calls : Int) ≤ INT_MAX) :
    0 ≤ (w.counts.get op).val ∧ (w.counts.get op).val ≤ (occurrences op calls : Nat) := by
  have h0 : (initialCounts.get op).val = 0 := rfl
  have h := run_bounded I op calls ⟨initialCounts, objs0⟩ w hrun
    (by show 0 ≤ (initialCounts.get op).val; rw [h0])
    (by show (initialCounts.get op).val + _ ≤ INT_MAX; rw [h0]; simpa using hb)
  have h1 : (World.counts (⟨initialCounts, objs0⟩ : World T)).get op = initialCounts.get op :=
    rfl
  rw [h1, h0] at h
  exact ⟨h.1, by simpa using h.2⟩

/-- Witness of C17: a reset followed by the program `demo`, from program
start; the Comparison counter ends non-negative. -/
theorem counters_nonneg_witness :
    ∃ w, run (intInner 0) (Call.reset :: demo) ⟨initialCounts, []⟩ = some w ∧
      (occurrences Operation.Comparison (Call.reset :: demo) : Int) ≤ INT_MAX ∧
      0 ≤ (w.counts.get Operation.Comparison).val :=
  ⟨_, rfl, by decide,
    (counters_nonneg (intInner 0) (Call.reset :: demo) [] _ rfl
      Operation.Comparison (by decide)).1⟩

/-- Counterexample to C17 as stated: from program start, a reset, one default
construction and `2^31` equality comparisons lead to a state in which the
Equality counter is negative. -/
theorem negative_counter :
    ∃ w, run (intInner 0) resetThenLoop ⟨initialCounts, []⟩ = some w ∧
      (w.counts.get Operation.Equality).val = -2147483648 ∧
      (w.counts.get Operation.Equality).val < 0 := by
  obtain ⟨w, hw, hv⟩ := longLoop_equality (instrumented.reset_op_counts initialCounts)
  have hrun : run (intInner 0) resetThenLoop ⟨initialCounts, []⟩ = some w := by
    unfold resetThenLoop
    rw [run_cons_reset]
    exact hw
  have h0 : ((instrumented.reset_op_counts initialCounts).get Operation.Equality).val = 0 :=
    rfl
  rw [h0] at hv
  have hval : (w.counts.get Operation.Equality).val = -2147483648 := by
    rw [hv]; unfold wrap32; omega
  exact ⟨w, hrun, hval, by rw [hval]; decide⟩

/-! ## Constructions, destructions and live wrappers -/

theorem countP_set_some {T : Type} (objs : List (Option (instrumented T))) :
    ∀ (i : Nat) (a b : instrumented T), objs[i]? = some (some a) →
      (objs.set i (some b)).countP Option.isSome = objs.countP Option.isSome := by
  induction objs with
  | nil => intro i a b h; simp at h
  | cons x rest ih =>
    intro i a b h
    cases i with
    | zero =>
      have hx : x = some a := by simpa using h
      simp [List.countP_cons, hx]
    | succ j =>
      have hj : rest[j]? = some (some a) := by simpa using h
      simp [List.countP_cons, ih j a b hj]

theorem countP_set_none {T : Type} (objs : List (Option (instrumented T))) :
    ∀ (i : Nat) (a : instrumented T), objs[i]? = some (some a) →
      (objs.set i none).countP Option.isSome + 1 = objs.countP Option.isSome := by
  induction objs with
  | nil => intro i a h; simp at h
  | cons x rest ih =>
    intro i a h
    cases i with
    | zero =>
      have hx : x = some a := by simpa using h
      simp [List.countP_cons, hx]
    | succ j =>
      have hj : rest[j]? = some (some a) := by simpa using h
      have := ih j a hj
      simp only [List.set_cons_succ, List.countP_cons]
      omega

theorem getElem?_set_some_live {T : Type} (objs : List (Option (instrumented T)))
    (i j : Nat) (a b x : instrumented T)
    (hi : objs[i]? = some (some a)) (hj : objs[j]? = some (some b)) :
    ∃ y, (objs.set i (some x))[j]? = some (some y) := by
  by_cases hij : i = j
  · subst hij
    have hlt : i < objs.length := by
      by_contra hge
      rw [List.getElem?_eq_none (Nat.le_of_not_lt hge)] at hi
      cases hi
    exact ⟨x, by simp [List.getElem?_set_self, hlt]⟩
  · exact ⟨b, by rw [List.getElem?_set_ne hij]; exact hj⟩

theorem step_alive {T : Type} (I : Inner T) (w w2 : World T) (k : Call T)
    (h : step I w k = some w2) :
    w2.alive + (if k.kind = some Operation.Destruct then 1 else 0)
      = w.alive
        + (if k.kind = some Operation.DefaultConstruct then 1 else 0)
        + (if k.kind = some Operation.Construct then 1 else 0)
        + (if k.kind = some Operation.CopyConstruct then 1 else 0)
        + (if k.kind = some Operation.MoveConstruct then 1 else 0) := by
  cases k with
  | default_construct =>
    simp only [step, Option.some.injEq] at h
    subst h
    simp [World.alive, Call.kind, List.countP_append]
  | construct_copy x =>
    simp only [step, Option.some.injEq] at h
    subst h
    simp [World.alive, Call.kind, List.countP_append]
  | construct_move x =>
    simp only [step, Option.some.injEq] at h
    subst h
    simp [World.alive, Call.kind, List.countP_append]
  | copy_construct src =>
    simp only [step, Option.bind_eq_some, Option.some.injEq] at h
    obtain ⟨a, _, rfl⟩ := h
    simp [World.alive, Call.kind, List.countP_append]
  | move_construct src =>
    simp only [step, Option.bind_eq_some, Option.some.injEq] at h
    obtain ⟨a, ha, rfl⟩ := h
    have hs := countP_set_some w.objs src a (instrumented.ctor_move I a w.counts).2.1
      (World.live_lt w src a ha).2
    simp [World.alive, Call.kind, List.countP_append, hs]
  | copy_assign dst src =>
    simp only [step, Option.bind_eq_some, Option.some.injEq] at h
    obtain ⟨a, ha, b, _, rfl⟩ := h
    have hs := countP_set_some w.objs dst a (instrumented.assign_copy a b w.counts).1
      (World.live_lt w dst a ha).2
    simp [World.alive, Call.kind, hs]
  | move_assign dst src =>
    simp only [step, Option.bind_eq_some] at h
    obtain ⟨a, ha, b, hb, h2⟩ := h
    split at h2
    · simp only [Option.some.injEq] at h2
      subst h2
      have hs := countP_set_some w.objs dst a
        (instrumented.assign_move_self I a w.counts).1 (World.live_lt w dst a ha).2
      simp [World.alive, Call.kind, hs]
    simp only [Option.some.injEq] at h2
    subst h2
    have h1 := countP_set_some w.objs src b (instrumented.assign_move I a b w.counts).2.1
      (World.live_lt w src b hb).2
    obtain ⟨y, hy⟩ := getElem?_set_some_live w.objs src dst b a
      (instrumented.assign_move I a b w.counts).2.1
      (World.live_lt w src b hb).2 (World.live_lt w dst a ha).2
    have h2 := countP_set_some _ dst y (instrumented.assign_move I a b w.counts).1 hy
    simp [World.alive, Call.kind, h1, h2]
  | destruct obj =>
    simp only [step, Option.bind_eq_some, Option.some.injEq] at h
    obtain ⟨a, ha, rfl⟩ := h
    have hs := countP_set_none w.objs obj a (World.live_lt w obj a ha).2
    simp [World.alive, Call.kind, hs]
  | equal a b =>
    simp only [step, Option.bind_eq_some, Option.some.injEq] at h
    obtain ⟨_, _, _, _, rfl⟩ := h
    simp [World.alive, Call.kind]
  | less a b =>
    simp only [step, Option.bind_eq_some, Option.some.injEq] at h
    obtain ⟨_, _, _, _, rfl⟩ := h
    simp [World.alive, Call.kind]
  | greater a b =>
    simp only [step, Option.bind_eq_some, Option.some.injEq] at h
    obtain ⟨_, _, _, _, rfl⟩ := h
    simp [World.alive, Call.kind]
  | less_equal a b =>
    simp only [step, Option.bind_eq_some, Option.some.injEq] at h
    obtain ⟨_, _, _, _, rfl⟩ := h
    simp [World.alive, Call.kind]
  | greater_equal a b =>
    simp only [step, Option.bind_eq_some, Option.some.injEq] at h
    obtain ⟨_, _, _, _, rfl⟩ := h
    simp [World.alive, Call.kind]
  | value obj =>
    simp only [step, Option.bind_eq_some, Option.some.injEq] at h
    obtain ⟨_, _, rfl⟩ := h
    simp [World.alive, Call.kind]
  | reset =>
    simp only [step, Option.some.injEq] at h
    subst h
    simp [World.alive, Call.kind]

theorem occurrences_cons {T : Type} (op : Operation) (k : Call T) (ks : List (Call T)) :
    occurrences op (k :: ks)
      = (if k.kind = some op then 1 else 0) + occurrences op ks := by
  by_cases hkk : k.kind = some op
  · simp [occurrences, List.countP_cons, hkk]; ring
  · simp [occurrences, List.countP_cons, hkk]

theorem run_alive {T : Type} (I : Inner T) (calls : List (Call T)) :
    ∀ (w w2 : World T), run I calls w = some w2 →
      w2.alive + occurrences Operation.Destruct calls
        = w.alive + occurrences Operation.DefaultConstruct calls
          + occurrences Operation.Construct calls
          + occurrences Operation.CopyConstruct calls
          + occurrences Operation.MoveConstruct calls := by
  induction calls with
  | nil =>
    intro w w2 h
    simp only [run, Option.some.injEq] at h
    subst h
    simp [occurrences]
  | cons k ks ih =>
    intro w w2 h
    simp only [run, Option.bind_eq_some] at h
    obtain ⟨w1, h1, h2⟩ := h
    have hs := step_alive I w w1 k h1
    have hr := ih w1 w2 h2
    simp only [occurrences_cons]
    omega

theorem occurrences_replicate {T : Type} (op : Operation) (k : Call T) (n : Nat) :
    occurrences op (List.replicate n k) = if k.kind = some op then n else 0 := by
  induction n with
  | zero => simp [occurrences]
  | succ m ih =>
    rw [List.replicate_succ, occurrences_cons, ih]
    by_cases hkk : k.kind = some op
    · simp [hkk]; ring
    · simp [hkk]

theorem run_replicate_default {T : Type} (I : Inner T) (n : Nat) :
    ∀ w : World T, ∃ w2, run I (List.replicate n Call.default_construct) w = some w2 := by
  induction n with
  | zero => intro w; exact ⟨w, rfl⟩
  | succ m ih =>
    intro w
    obtain ⟨w2, h2⟩ := ih ⟨w.counts.incr Operation.DefaultConstruct,
      w.objs ++ [some ⟨I.dflt⟩]⟩
    exact ⟨w2, by rw [List.replicate_succ, run_cons_default]; exact h2⟩

/-- C18, as amended: for every run that starts with all counters zero and no
live wrapper, performs a finite sequence of well-formed wrapper operations
without a reset, and in which each of the four kinds of construction and
destruction occurs at most `INT_MAX` times, the Destruct counter is at most
DefaultConstruct + Construct + CopyConstruct + MoveConstruct, the difference
is the number of wrappers still alive, and the two are equal exactly when no
wrapper is alive. -/
theorem lifecycle_balance {T : Type} (I : Inner T) (calls : List (Call T)) (w : World T)
    (hnr : ∀ k ∈ calls, k.isReset = false)
    (hrun : run I calls ⟨initialCounts, []⟩ = some w)
    (hb : ∀ op ∈ lifecycleKinds, (occurrences op calls : Int) ≤ INT_MAX) :
    (w.counts.get Operation.Destruct).val
      ≤ (w.counts.get Operation.DefaultConstruct).val
        + (w.counts.get Operation.Construct).val
        + (w.counts.get Operation.CopyConstruct).val
        + (w.counts.get Operation.MoveConstruct).val ∧
    (w.counts.get Operation.DefaultConstruct).val
        + (w.counts.get Operation.Construct).val
        + (w.counts.get Operation.CopyConstruct).val
        + (w.counts.get Operation.MoveConstruct).val
        - (w.counts.get Operation.Destruct).val = (w.alive : Nat) ∧
    ((w.counts.get Operation.Destruct).val
      = (w.counts.get Operation.DefaultConstruct).val
        + (w.counts.get Operation.Construct).val
        + (w.counts.get Operation.CopyConstruct).val
        + (w.counts.get Operation.MoveConstruct).val ↔ w.alive = 0) := by
  have hval : ∀ op ∈ lifecycleKinds,
      (w.counts.get op).val = (occurrences op calls : Nat) := by
    intro op hop
    have h := run_counts_val I calls _ w hrun hnr op
    have h0 : ((World.counts (⟨initialCounts, []⟩ : World T)).get op).val = 0 := rfl
    have hbo := hb op hop
    unfold INT_MAX at hbo
    rw [h, h0]
    unfold wrap32
    omega
  have hd := hval Operation.Destruct (by decide)
  have h1 := hval Operation.DefaultConstruct (by decide)
  have h2 := hval Operation.Construct (by decide)
  have h3 := hval Operation.CopyConstruct (by decide)
  have h4 := hval Operation.MoveConstruct (by decide)
  have ha := run_alive I calls _ w hrun
  have he : (World.alive (⟨initialCounts, []⟩ : World T)) = 0 := rfl
  rw [he] at ha
  rw [hd, h1, h2, h3, h4]
  refine ⟨by omega, by omega, ?_⟩
  constructor
  · intro h; omega
  · intro h; omega

/-- Witness of C18 on the program `demo` from program start: three wrappers
are constructed, one is destroyed, two are alive. -/
theorem lifecycle_balance_witness :
    ∃ w, run (intInner 0) demo ⟨initialCounts, []⟩ = some w ∧
      w.alive = 2 ∧
      (w.counts.get Operation.DefaultConstruct).val
        + (w.counts.get Operation.Construct).val
        + (w.counts.get Operation.CopyConstruct).val
        + (w.counts.get Operation.MoveConstruct).val
        - (w.counts.get Operation.Destruct).val = (w.alive : Nat) :=
  ⟨_, rfl, rfl,
    (lifecycle_balance (intInner 0) demo _ (by decide) rfl (by decide)).2.1⟩

/-- Counterexample to C18 as stated: from program start, `2^31` default
constructions with no destruction are a well-formed run without a reset, after
which DefaultConstruct holds `-2^31` and the other four life-cycle counters
hold 0, so Destruct exceeds the sum of the four construction counters. -/
theorem lifecycle_overflow :
    ∃ w, run (intInner 0) manyAlive ⟨initialCounts, []⟩ = some w ∧
      (w.counts.get Operation.DefaultConstruct).val = -2147483648 ∧
      (w.counts.get Operation.Destruct).val = 0 ∧
      ¬ ((w.counts.get Operation.Destruct).val
        ≤ (w.counts.get Operation.DefaultConstruct).val
          + (w.counts.get Operation.Construct).val
          + (w.counts.get Operation.CopyConstruct).val
          + (w.counts.get Operation.MoveConstruct).val) := by
  obtain ⟨w, hw⟩ := run_replicate_default (intInner 0) 2147483648 ⟨initialCounts, []⟩
  have hrun : run (intInner 0) manyAlive ⟨initialCounts, []⟩ = some w := hw
  have hnr : ∀ k ∈ manyAlive, k.isReset = false := by
    intro k hk
    unfold manyAlive at hk
    rw [List.eq_of_mem_replicate hk]; rfl
  have hval : ∀ op, (w.counts.get op).val
      = wrap32 (0 + (occurrences op manyAlive : Nat)) := fun op =>
    run_counts_val (intInner 0) manyAlive _ w hrun hnr op
  have hocc : ∀ op, occurrences op manyAlive
      = if (Call.default_construct : Call Int).kind = some op then 2147483648 else 0 :=
    fun op => occurrences_replicate op Call.default_construct 2147483648
  have hk : (Call.default_construct : Call Int).kind = some Operation.DefaultConstruct :=
    rfl
  have e1 : (w.counts.get Operation.DefaultConstruct).val = -2147483648 := by
    rw [hval, hocc, hk]; simp only [if_true]; unfold wrap32; omega
  have e2 : (w.counts.get Operation.Construct).val = 0 := by
    rw [hval, hocc, hk]; simp [wrap32]
  have e3 : (w.counts.get Operation.CopyConstruct).val = 0 := by
    rw [hval, hocc, hk]; simp [wrap32]
  have e4 : (w.counts.get Operation.MoveConstruct).val = 0 := by
    rw [hval, hocc, hk]; simp [wrap32]
  have e5 : (w.counts.get Operation.Destruct).val = 0 := by
    rw [hval, hocc, hk]; simp [wrap32]
  refine ⟨w, hrun, e1, e5, ?_⟩
  rw [e1, e2, e3, e4, e5]
  decide

/-! ## Derived comparisons on a totally ordered inner type -/

/-- C19: for an inner type that is totally ordered, with `operator<` deciding
the strict order and `operator==` deciding equality (as for the integers), the
derived comparisons forward the order of the inner type: `a > b` holds iff
`a.value() > b.value()`, `a <= b` iff `a.value() <= b.value()`, `a >= b` iff
`a.value() >= b.value()`, and exactly one of `a < b`, `a == b`, `a > b`
holds. -/
theorem derived_comparisons_forward {T : Type} [LinearOrder T] (I : Inner T)
    (hlt : ∀ x y : T, I.lt x y = true ↔ x < y)
    (heq : ∀ x y : T, I.eq x y = true ↔ x = y)
    (a b : instrumented T) (c : OpCounts) :
    ((instrumented.op_gt I a b c).1 = true
      ↔ (instrumented.value a c).1 > (instrumented.value b c).1) ∧
    ((instrumented.op_le I a b c).1 = true
      ↔ (instrumented.value a c).1 ≤ (instrumented.value b c).1) ∧
    ((instrumented.op_ge I a b c).1 = true
      ↔ (instrumented.value a c).1 ≥ (instrumented.value b c).1) ∧
    (((instrumented.op_lt I a b c).1 = true ∧ (instrumented.op_eq I a b c).1 = false
        ∧ (instrumented.op_gt I a b c).1 = false) ∨
      ((instrumented.op_lt I a b c).1 = false ∧ (instrumented.op_eq I a b c).1 = true
        ∧ (instrumented.op_gt I a b c).1 = false) ∨
      ((instrumented.op_lt I a b c).1 = false ∧ (instrumented.op_eq I a b c).1 = false
        ∧ (instrumented.op_gt I a b c).1 = true)) := by
  have hltf : ∀ x y : T, I.lt x y = false ↔ ¬ x < y := fun x y => by
    rw [← hlt x y]; simp
  have heqf : ∀ x y : T, I.eq x y = false ↔ ¬ x = y := fun x y => by
    rw [← heq x y]; simp
  simp only [instrumented.op_gt, instrumented.op_le, instrumented.op_ge,
    instrumented.op_lt, instrumented.op_eq, instrumented.value, Bool.not_eq_true',
    hlt, heq, hltf, heqf, not_lt, gt_iff_lt, ge_iff_le]
  refine ⟨trivial, trivial, trivial, ?_⟩
  rcases lt_trichotomy a.t b.t with h | h | h
  · exact Or.inl ⟨h, ne_of_lt h, le_of_lt h⟩
  · exact Or.inr (Or.inl ⟨le_of_eq h.symm, h, le_of_eq h⟩)
  · exact Or.inr (Or.inr ⟨le_of_lt h, ne_of_gt h, h⟩)

/-- Witness of C19 on the integers, with wrappers holding 3 and 8: `a > b` is
false, `a <= b` is true, `a >= b` is false. -/
theorem derived_comparisons_forward_witness :
    (∀ x y : Int, (intInner 0).lt x y = true ↔ x < y) ∧
    (∀ x y : Int, (intInner 0).eq x y = true ↔ x = y) ∧
    ((instrumented.op_gt (intInner 0) ⟨3⟩ ⟨8⟩ zeroed).1 = true ↔ (3 : Int) > 8) ∧
    ((instrumented.op_le (intInner 0) ⟨3⟩ ⟨8⟩ zeroed).1 = true ↔ (3 : Int) ≤ 8) ∧
    ((instrumented.op_ge (intInner 0) ⟨3⟩ ⟨8⟩ zeroed).1 = true ↔ (3 : Int) ≥ 8) :=
  ⟨fun x y => by simp [intInner], fun x y => by simp [intInner],
    (derived_comparisons_forward (intInner 0) (fun x y => by simp [intInner])
      (fun x y => by simp [intInner]) ⟨3⟩ ⟨8⟩ zeroed).1,
    (derived_comparisons_forward (intInner 0) (fun x y => by simp [intInner])
      (fun x y => by simp [intInner]) ⟨3⟩ ⟨8⟩ zeroed).2.1,
    (derived_comparisons_forward (intInner 0) (fun x y => by simp [intInner])
      (fun x y => by simp [intInner]) ⟨3⟩ ⟨8⟩ zeroed).2.2.1⟩

end Instrumented
